import Mathlib

/-!
Verification development for the scene/editing engine of an interactive
vector-drawing editor (source: `src/components/toolbar.tsx`).

The embedding below translates the TypeScript source into Lean:
* JavaScript numbers are modelled as real numbers (`ℝ`); `Math.sqrt` is
  `Real.sqrt`, `Math.abs` is `|·|`, `Math.max` is `max`, `Math.round` is
  Mathlib's `round` (both round halves up), `Math.atan2 y x` is the argument
  of the complex number `x + i y`, `Math.PI` is `Real.pi`.
* Optional fields (`width?`, `points?`, ...) are `Option` values; the JS
  truthiness default `(v || 0)` on a numeric optional field is `orZero`.
* The optional boolean `selected?` is modelled as a `Bool` defaulting to
  `false`: the source only ever reads it in boolean position, where the JS
  `undefined` behaves exactly like `false`.
* `Date.now().toString()` id minting is modelled by passing the current
  clock value `now : Nat` into each event handler; the
  `Math.random().toString(36).substr(2, 9)` suffix used by copy/cut/paste/
  duplicate is modelled by an externally supplied entropy stream
  `rand : Nat → String` (one draw per mapped element).
* React state setters become explicit state passing.  Inside one event
  handler the source's `elements` binding is the render-time snapshot
  `history.present` captured on entry (it is **stale** after an
  intermediate `updateHistory` call in the same handler), while
  `setHistory(prev => ...)` always reads the latest history; the embedding
  reproduces this by capturing `elements` once and threading the history.
-/

set_option maxHeartbeats 1600000

open scoped Classical

/-- Two-dimensional point, source `{ x: number; y: number }`. -/
@[ext]
structure Pt where
  x : ℝ
  y : ℝ

/-- Source `ElementType`: the tool / element variant union. -/
inductive ElementType
  | selection
  | rectangle
  | circle
  | line
  | arrow
  | text
  | freehand
deriving DecidableEq, Repr

/-- Source `Element` record.  Optional fields are `Option`s; `selected` is a
`Bool` (see the module comment). -/
structure Element where
  id : String
  type : ElementType
  x : ℝ
  y : ℝ
  width : Option ℝ := none
  height : Option ℝ := none
  radius : Option ℝ := none
  points : Option (List Pt) := none
  text : Option String := none
  fill : String
  stroke : String
  strokeWidth : ℝ
  isDragging : Bool
  selected : Bool := false
  rotation : Option ℝ := none

/-- Source `HandlePosition` union.  `lineStart`/`lineEnd` stand for the
source's `"start"`/`"end"` strings (`end` is a Lean keyword). -/
inductive HandlePosition
  | topLeft
  | top
  | topRight
  | left
  | right
  | bottomLeft
  | bottom
  | bottomRight
  | lineStart
  | lineEnd
  | rotation
deriving DecidableEq, Repr

/-- Source `History` record for undo/redo. -/
structure History where
  past : List (List Element)
  present : List Element
  future : List (List Element)

/-- Source `MAX_HISTORY_LENGTH`. -/
def MAX_HISTORY_LENGTH : Nat := 50

/-- JS `arr.slice(-n)`: the last `n` elements of the array (the whole array
if it is shorter). -/
def takeLast {α : Type _} (n : Nat) (l : List α) : List α :=
  l.drop (l.length - n)

/-- Source `updateHistory`: push the current `present` onto `past` (capped
at `MAX_HISTORY_LENGTH`, dropping the oldest), install the new scene as
`present`, and clear `future`. -/
def updateHistory (h : History) (newElements : List Element) : History :=
  { past := takeLast MAX_HISTORY_LENGTH (h.past ++ [h.present])
    present := newElements
    future := [] }

/-- Source `handleUndo`: no-op when `past` is empty, otherwise pop the last
snapshot of `past` into `present` and push the old `present` onto the front
of `future` (capped with `.slice(0, MAX_HISTORY_LENGTH)`). -/
def handleUndo (h : History) : History :=
  match h.past.getLast? with
  | none => h
  | some newPresent =>
      { past := h.past.dropLast
        present := newPresent
        future := (h.present :: h.future).take MAX_HISTORY_LENGTH }

/-- Source `handleRedo`: no-op when `future` is empty, otherwise shift the
first snapshot of `future` into `present` and push the old `present` onto
`past` (capped with `.slice(-MAX_HISTORY_LENGTH)`). -/
def handleRedo (h : History) : History :=
  match h.future with
  | [] => h
  | newPresent :: newFuture =>
      { past := takeLast MAX_HISTORY_LENGTH (h.past ++ [h.present])
        present := newPresent
        future := newFuture }

/-- JS `(v || 0)` on an optional numeric field: `undefined` becomes `0`
(and an actual `0` stays `0`, so `getD 0` is exact). -/
def orZero (o : Option ℝ) : ℝ := o.getD 0

/-- The fixed-width text approximation `(element.text || "").length * 8`
used throughout the source for text hit boxes and handles. -/
def textWidth (el : Element) : ℝ := ((el.text.getD "").length : ℝ) * 8

/-- Source `isPointInElement (x, y, element)`.

For the `line`/`arrow` branch the source computes
`distance = |(ey−sy)·x − (ex−sx)·y + ex·sy − ey·sx| / lineLength` and
returns `distance < 10`.  When the two stored endpoints coincide,
`lineLength` is `0` and the JS division yields `NaN` (`0/0`) or `Infinity`,
and both `NaN < 10` and `Infinity < 10` are `false`; the real-valued
embedding therefore carries the explicit conjunct `lineLength ≠ 0`, which
is exactly the set of inputs on which the JS comparison can succeed. -/
def isPointInElement (x y : ℝ) (element : Element) : Prop :=
  match element.type with
  | .rectangle =>
      x ≥ element.x ∧ x ≤ element.x + orZero element.width ∧
      y ≥ element.y ∧ y ≤ element.y + orZero element.height
  | .circle =>
      Real.sqrt ((x - element.x) * (x - element.x) + (y - element.y) * (y - element.y)) ≤
        orZero element.radius
  | .line | .arrow =>
      match element.points with
      | some (start :: stop :: _) =>
          let lineLength :=
            Real.sqrt ((stop.x - start.x) ^ 2 + (stop.y - start.y) ^ 2)
          lineLength ≠ 0 ∧
            |(stop.y - start.y) * x - (stop.x - start.x) * y +
                stop.x * start.y - stop.y * start.x| / lineLength < 10
      | _ => False
  | .text =>
      x ≥ element.x ∧ x ≤ element.x + textWidth element ∧
      y ≥ element.y - 16 ∧ y ≤ element.y
  | _ => False

/-- Transient selection box, source
`{ startX: number; startY: number; width: number; height: number }`. -/
structure SelectionBox where
  startX : ℝ
  startY : ℝ
  width : ℝ
  height : ℝ

/-- Source `selectionLeft` bound of a selection box (negative width extends
to the left of the anchor). -/
noncomputable def selectionLeft (box : SelectionBox) : ℝ :=
  if box.width ≥ 0 then box.startX else box.startX + box.width

/-- Source `selectionRight` bound of a selection box. -/
noncomputable def selectionRight (box : SelectionBox) : ℝ :=
  if box.width ≥ 0 then box.startX + box.width else box.startX

/-- Source `selectionTop` bound of a selection box. -/
noncomputable def selectionTop (box : SelectionBox) : ℝ :=
  if box.height ≥ 0 then box.startY else box.startY + box.height

/-- Source `selectionBottom` bound of a selection box. -/
noncomputable def selectionBottom (box : SelectionBox) : ℝ :=
  if box.height ≥ 0 then box.startY + box.height else box.startY

/-- Source `isElementInSelectionBox`: full containment of the element in
the (normalized) selection box; line/arrow require both endpoints inside. -/
def isElementInSelectionBox (element : Element) (box : SelectionBox) : Prop :=
  match element.type with
  | .rectangle =>
      element.x ≥ selectionLeft box ∧
      element.x + orZero element.width ≤ selectionRight box ∧
      element.y ≥ selectionTop box ∧
      element.y + orZero element.height ≤ selectionBottom box
  | .circle =>
      element.x - orZero element.radius ≥ selectionLeft box ∧
      element.x + orZero element.radius ≤ selectionRight box ∧
      element.y - orZero element.radius ≥ selectionTop box ∧
      element.y + orZero element.radius ≤ selectionBottom box
  | .text =>
      element.x ≥ selectionLeft box ∧
      element.x + textWidth element ≤ selectionRight box ∧
      element.y - 16 ≥ selectionTop box ∧
      element.y ≤ selectionBottom box
  | .line | .arrow =>
      match element.points with
      | some (start :: stop :: _) =>
          start.x ≥ selectionLeft box ∧ start.x ≤ selectionRight box ∧
          start.y ≥ selectionTop box ∧ start.y ≤ selectionBottom box ∧
          stop.x ≥ selectionLeft box ∧ stop.x ≤ selectionRight box ∧
          stop.y ≥ selectionTop box ∧ stop.y ≤ selectionBottom box
      | _ => False
  | _ => False

/-- Source `getHandleAtPosition (x, y, element)`: which 8×8-unit handle hit
box (if any) contains the point.  Only the branches present in the source
are reproduced, in source order (first match wins). -/
noncomputable def getHandleAtPosition (x y : ℝ) (element : Element) :
    Option HandlePosition :=
  let handleSize : ℝ := 8
  match element.type with
  | .rectangle =>
      let ex := element.x
      let ey := element.y
      let width := orZero element.width
      let height := orZero element.height
      if x ≥ ex - handleSize / 2 ∧ x ≤ ex + handleSize / 2 ∧
         y ≥ ey - handleSize / 2 ∧ y ≤ ey + handleSize / 2 then
        some .topLeft
      else if x ≥ ex + width / 2 - handleSize / 2 ∧ x ≤ ex + width / 2 + handleSize / 2 ∧
              y ≥ ey - handleSize / 2 ∧ y ≤ ey + handleSize / 2 then
        some .top
      else if x ≥ ex + width - handleSize / 2 ∧ x ≤ ex + width + handleSize / 2 ∧
              y ≥ ey - handleSize / 2 ∧ y ≤ ey + handleSize / 2 then
        some .topRight
      else if x ≥ ex - handleSize / 2 ∧ x ≤ ex + handleSize / 2 ∧
              y ≥ ey + height / 2 - handleSize / 2 ∧ y ≤ ey + height / 2 + handleSize / 2 then
        some .left
      else if x ≥ ex + width - handleSize / 2 ∧ x ≤ ex + width + handleSize / 2 ∧
              y ≥ ey + height / 2 - handleSize / 2 ∧ y ≤ ey + height / 2 + handleSize / 2 then
        some .right
      else if x ≥ ex - handleSize / 2 ∧ x ≤ ex + handleSize / 2 ∧
              y ≥ ey + height - handleSize / 2 ∧ y ≤ ey + height + handleSize / 2 then
        some .bottomLeft
      else if x ≥ ex + width / 2 - handleSize / 2 ∧ x ≤ ex + width / 2 + handleSize / 2 ∧
              y ≥ ey + height - handleSize / 2 ∧ y ≤ ey + height + handleSize / 2 then
        some .bottom
      else if x ≥ ex + width - handleSize / 2 ∧ x ≤ ex + width + handleSize / 2 ∧
              y ≥ ey + height - handleSize / 2 ∧ y ≤ ey + height + handleSize / 2 then
        some .bottomRight
      else
        let handleX := ex + width / 2
        let handleY := ey - 30
        if x ≥ handleX - handleSize / 2 ∧ x ≤ handleX + handleSize / 2 ∧
           y ≥ handleY - handleSize / 2 ∧ y ≤ handleY + handleSize / 2 then
          some .rotation
        else none
  | .circle =>
      let ex := element.x
      let ey := element.y
      let radius := orZero element.radius
      if x ≥ ex - handleSize / 2 ∧ x ≤ ex + handleSize / 2 ∧
         y ≥ ey - radius - handleSize / 2 ∧ y ≤ ey - radius + handleSize / 2 then
        some .top
      else if x ≥ ex + radius - handleSize / 2 ∧ x ≤ ex + radius + handleSize / 2 ∧
              y ≥ ey - handleSize / 2 ∧ y ≤ ey + handleSize / 2 then
        some .right
      else if x ≥ ex - handleSize / 2 ∧ x ≤ ex + handleSize / 2 ∧
              y ≥ ey + radius - handleSize / 2 ∧ y ≤ ey + radius + handleSize / 2 then
        some .bottom
      else if x ≥ ex - radius - handleSize / 2 ∧ x ≤ ex - radius + handleSize / 2 ∧
              y ≥ ey - handleSize / 2 ∧ y ≤ ey + handleSize / 2 then
        some .left
      else
        let handleX := ex
        let handleY := ey - radius - 30
        if x ≥ handleX - handleSize / 2 ∧ x ≤ handleX + handleSize / 2 ∧
           y ≥ handleY - handleSize / 2 ∧ y ≤ handleY + handleSize / 2 then
          some .rotation
        else none
  | .line | .arrow =>
      match element.points with
      | some (start :: stop :: _) =>
          if x ≥ start.x - handleSize / 2 ∧ x ≤ start.x + handleSize / 2 ∧
             y ≥ start.y - handleSize / 2 ∧ y ≤ start.y + handleSize / 2 then
            some .lineStart
          else if x ≥ stop.x - handleSize / 2 ∧ x ≤ stop.x + handleSize / 2 ∧
                  y ≥ stop.y - handleSize / 2 ∧ y ≤ stop.y + handleSize / 2 then
            some .lineEnd
          else none
      | _ => none
  | .text =>
      let ex := element.x
      let ey := element.y
      let tw := textWidth element
      let textHeight : ℝ := 16
      if x ≥ ex - handleSize / 2 ∧ x ≤ ex + handleSize / 2 ∧
         y ≥ ey - textHeight - handleSize / 2 ∧ y ≤ ey - textHeight + handleSize / 2 then
        some .topLeft
      else if x ≥ ex + tw - handleSize / 2 ∧ x ≤ ex + tw + handleSize / 2 ∧
              y ≥ ey - textHeight - handleSize / 2 ∧ y ≤ ey - textHeight + handleSize / 2 then
        some .topRight
      else if x ≥ ex - handleSize / 2 ∧ x ≤ ex + handleSize / 2 ∧
              y ≥ ey - handleSize / 2 ∧ y ≤ ey + handleSize / 2 then
        some .bottomLeft
      else if x ≥ ex + tw - handleSize / 2 ∧ x ≤ ex + tw + handleSize / 2 ∧
              y ≥ ey - handleSize / 2 ∧ y ≤ ey + handleSize / 2 then
        some .bottomRight
      else
        let centerX := ex + tw / 2
        let handleY := ey - textHeight - 30
        if x ≥ centerX - handleSize / 2 ∧ x ≤ centerX + handleSize / 2 ∧
           y ≥ handleY - handleSize / 2 ∧ y ≤ handleY + handleSize / 2 then
          some .rotation
        else none
  | _ => none

/-- Source `action` state union
`"none" | "drawing" | "moving" | "resizing" | "selecting"`; `idle` stands
for the source's `"none"`. -/
inductive ActionState
  | idle
  | drawing
  | moving
  | resizing
  | selecting
deriving DecidableEq, Repr

/-- The ambient component state threaded through every event handler.
`color`, `strokeWidth` and `fill` are the current tool settings; zoom and
grid settings are omitted because the handlers below receive scene-space
coordinates (the source converts device pixels in `getMouseCoordinates`). -/
structure AppState where
  history : History
  selectedElement : Option Element
  tool : ElementType
  action : ActionState
  startPoint : Option Pt
  activeHandle : Option HandlePosition
  clipboard : List Element
  selectionBox : Option SelectionBox
  multiSelectMode : Bool
  color : String
  strokeWidth : ℝ
  fill : String

/-- `setHistory(prev => ({ ...prev, present: els }))`: replace only the
present scene, leaving `past`/`future` untouched (live edit, no commit). -/
def setPresent (s : AppState) (els : List Element) : AppState :=
  { s with history := { s.history with present := els } }

/-- Source `elements.find((element) => isPointInElement(x, y, element))`:
JS `Array.prototype.find` scans the array in forward (insertion) order and
returns the first match. -/
noncomputable def findClickedElement (x y : ℝ) : List Element → Option Element
  | [] => none
  | el :: rest =>
      if isPointInElement x y el then some el else findClickedElement x y rest

/-- `Date.now().toString()`: the current clock millisecond as a string. -/
def mintId (now : Nat) : String := toString now

/-- `Date.now().toString() + Math.random().toString(36).substr(2, 9)`: the
clock millisecond concatenated with an externally supplied entropy draw. -/
def mintId2 (now : Nat) (r : String) : String := toString now ++ r

/-- JS `arr.map((el, index) => f index el)` starting at index `i`: a map
that also passes the element's array index to the callback. -/
def mapIdxFrom {α : Type _} (f : Nat → α → α) : Nat → List α → List α
  | _, [] => []
  | i, el :: rest => f i el :: mapIdxFrom f (i + 1) rest

/-- JS `Math.atan2 y x`, the angle of the vector `(x, y)` in radians,
modelled as the argument of the complex number `x + i y`. -/
noncomputable def atan2 (y x : ℝ) : ℝ := Complex.arg ⟨x, y⟩

/-- The recurring center-point computation of the source (rotation pivot):
rectangle center, circle center, text-approximation center, line/arrow
midpoint, falling back to `(element.x, element.y)`. -/
noncomputable def elementCenter (el : Element) : Pt :=
  match el.type with
  | .rectangle => ⟨el.x + orZero el.width / 2, el.y + orZero el.height / 2⟩
  | .circle => ⟨el.x, el.y⟩
  | .text => ⟨el.x + textWidth el / 2, el.y - 8⟩
  | .line | .arrow =>
      match el.points with
      | some (start :: stop :: _) => ⟨(start.x + stop.x) / 2, (start.y + stop.y) / 2⟩
      | _ => ⟨el.x, el.y⟩
  | _ => ⟨el.x, el.y⟩

/-- Sub-branch of `handleMouseDown`: the down-point hit `clickedElement`
(no handle hit).  `elements` is the stale scene snapshot captured at
handler entry. -/
noncomputable def handleMouseDownOnElement (s : AppState) (now : Nat) (x y : ℝ)
    (isShiftPressed isAltPressed : Bool) (elements : List Element)
    (clickedElement : Element) : AppState :=
  if isAltPressed = true then
    let duplicatedElement := { clickedElement with id := mintId now, selected := true }
    let updatedElements := elements.map fun el =>
      { el with selected := if isShiftPressed = true then el.selected
                            else el.id == clickedElement.id }
    { s with
      history := updateHistory s.history (updatedElements ++ [duplicatedElement])
      selectedElement := some duplicatedElement
      action := .moving
      startPoint := some ⟨x, y⟩ }
  else if isShiftPressed = false ∧ clickedElement.selected = false then
    let updatedElements := elements.map fun el =>
      { el with selected := el.id == clickedElement.id }
    { s with
      history := updateHistory s.history updatedElements
      selectedElement := some clickedElement
      action := .moving
      startPoint := some ⟨x, y⟩ }
  else
    let updatedElements := elements.map fun el =>
      if el.id == clickedElement.id then
        { el with selected := if isShiftPressed = true then !el.selected else true }
      else
        { el with selected := if isShiftPressed = true then el.selected else false }
    let s1 := { s with history := updateHistory s.history updatedElements }
    let s2 :=
      if clickedElement.selected = false ∨ isShiftPressed = false then
        { s1 with selectedElement := some clickedElement }
      else s1
    { s2 with action := .moving, startPoint := some ⟨x, y⟩ }

/-- First step of the empty-space branch of `handleMouseDown`: when Shift
is not held and something is selected, clear the whole selection as a
committed mutation. -/
noncomputable def clearSelectionOnEmptyDown (s : AppState)
    (isShiftPressed : Bool) : AppState :=
  if isShiftPressed = false then
    if s.history.present.any (fun el => el.selected) then
      { s with
        history := updateHistory s.history
          (s.history.present.map fun el => { el with selected := false })
        selectedElement := none }
    else s
  else s

/-- Sub-branch of `handleMouseDown`: the down-point hit empty space.
`elements` below is the stale snapshot from handler entry — the source's
drawing branches build the new scene from it even after the
clear-selection commit, while `updateHistory` (a `setHistory` functional
update) always threads the latest history. -/
noncomputable def handleMouseDownEmpty (s : AppState) (now : Nat) (x y : ℝ)
    (isShiftPressed : Bool) : AppState :=
  let elements := s.history.present
  let s1 := clearSelectionOnEmptyDown s isShiftPressed
  if s.tool = .selection ∨ isShiftPressed = true then
    { s1 with action := .selecting, selectionBox := some ⟨x, y, 0, 0⟩ }
  else
    let s2 := { s1 with action := .drawing, startPoint := some ⟨x, y⟩ }
    if s.tool = .freehand then
      let newElement : Element :=
        { id := mintId now, type := .line, x := 0, y := 0,
          points := some [⟨x, y⟩], stroke := s.color, strokeWidth := s.strokeWidth,
          fill := s.fill, isDragging := false, rotation := some 0 }
      { s2 with history := updateHistory s2.history (elements ++ [newElement]) }
    else if s.tool = .text then
      let newElement : Element :=
        { id := mintId now, type := .text, x := x, y := y,
          text := some "Double-click to edit", fill := s.color,
          stroke := "transparent", strokeWidth := 0, isDragging := false,
          selected := true, rotation := some 0 }
      let updatedElements := elements.map fun el => { el with selected := false }
      { s2 with
        history := updateHistory s2.history (updatedElements ++ [newElement])
        selectedElement := some newElement }
    else
      let base : Element :=
        { id := mintId now, type := s.tool, x := x, y := y,
          width := some 0, height := some 0, fill := s.fill, stroke := s.color,
          strokeWidth := s.strokeWidth, isDragging := false, rotation := some 0 }
      let newElement :=
        if s.tool = .circle then { base with radius := some 0 }
        else if s.tool = .line ∨ s.tool = .arrow then
          { base with points := some [⟨x, y⟩, ⟨x, y⟩] }
        else base
      { s2 with history := updateHistory s2.history (elements ++ [newElement]) }

/-- Source `handleMouseDown`: resolution order is (1) handle of the
selected element → `resizing`; (2) any element under the point (via
`elements.find`) → alt-duplicate or selection update, then `moving`;
(3) empty space → optional clear-selection commit, then box-select or a
new element of the active tool's variant. -/
noncomputable def handleMouseDown (s0 : AppState) (now : Nat) (x y : ℝ)
    (isShiftPressed isAltPressed : Bool) : AppState :=
  let elements := s0.history.present
  let s := { s0 with multiSelectMode := isShiftPressed }
  let handleHit : Option HandlePosition :=
    match s.selectedElement with
    | some sel => getHandleAtPosition x y sel
    | none => none
  match handleHit with
  | some handle =>
      { s with action := .resizing, activeHandle := some handle,
               startPoint := some ⟨x, y⟩ }
  | none =>
      match findClickedElement x y elements with
      | some clickedElement =>
          handleMouseDownOnElement s now x y isShiftPressed isAltPressed
            elements clickedElement
      | none => handleMouseDownEmpty s now x y isShiftPressed

/-- Freehand drawing callback of `handleMouseMove`: append the pointer to
the live stroke's point list (`[...(el.points || []), { x, y }]`). -/
def freehandAppend (x y : ℝ) (el : Element) : Element :=
  { el with points := some ((el.points.getD []) ++ [⟨x, y⟩]) }

/-- Rectangle drawing callback of `handleMouseMove`: extents follow the
pointer; Shift forces `|width| = |height|` preserving the sign per axis. -/
noncomputable def rectangleDrawResize (x y : ℝ) (shiftKey : Bool)
    (el : Element) : Element :=
  if shiftKey = true then
    let width := x - el.x
    let height := y - el.y
    let size := max |width| |height|
    { el with width := some (if width ≥ 0 then size else -size),
              height := some (if height ≥ 0 then size else -size) }
  else
    { el with width := some (x - el.x), height := some (y - el.y) }

/-- Circle drawing callback of `handleMouseMove`: the radius becomes the
Euclidean distance from the center to the pointer. -/
noncomputable def circleDrawResize (x y : ℝ) (el : Element) : Element :=
  let dx := x - el.x
  let dy := y - el.y
  { el with radius := some (Real.sqrt (dx * dx + dy * dy)) }

/-- Line/arrow drawing callback of `handleMouseMove`: the second point
follows the pointer; Shift snaps the direction to the nearest 45°
increment preserving the distance. -/
noncomputable def lineDrawUpdate (x y : ℝ) (shiftKey : Bool)
    (el : Element) : Element :=
  if shiftKey = true then
    let start := (el.points.getD []).headD ⟨0, 0⟩
    let dx := x - start.x
    let dy := y - start.y
    let angle := atan2 dy dx
    let snapAngle := ((round (angle / (Real.pi / 4)) : ℤ) : ℝ) * (Real.pi / 4)
    let distance := Real.sqrt (dx * dx + dy * dy)
    { el with points := some [start,
        ⟨start.x + distance * Real.cos snapAngle,
         start.y + distance * Real.sin snapAngle⟩] }
  else
    { el with points := some [(el.points.getD []).headD ⟨0, 0⟩, ⟨x, y⟩] }

/-- Moving callback of `handleMouseMove`: apply the constrained delta to a
selected element's position or point list. -/
noncomputable def moveSelectedBy (constrainedDx constrainedDy : ℝ)
    (el : Element) : Element :=
  if el.selected = true then
    match el.type with
    | .rectangle | .text =>
        { el with x := el.x + constrainedDx, y := el.y + constrainedDy }
    | .circle =>
        { el with x := el.x + constrainedDx, y := el.y + constrainedDy }
    | .line | .arrow =>
        if el.points ≠ none then
          { el with points := some ((el.points.getD []).map fun p =>
              ⟨p.x + constrainedDx, p.y + constrainedDy⟩) }
        else el
    | _ => el
  else el

/-- Rotation-handle callback of `handleMouseMoveResizing`: the new
rotation is `atan2(pointer − pivot)` in degrees plus 90, snapped to 15°
increments under Shift. -/
noncomputable def rotateElementTo (x y : ℝ) (shiftKey : Bool)
    (el : Element) : Element :=
  let c := elementCenter el
  let angle := atan2 (y - c.y) (x - c.x) * (180 / Real.pi)
  let rotation0 := angle + 90
  let rotation := if shiftKey = true then
      ((round (rotation0 / 15) : ℤ) : ℝ) * 15
    else rotation0
  { el with rotation := some rotation }

/-- Box-selection callback of `handleMouseUp`: membership toggles per
element under multi-select (Shift), otherwise it is overwritten by the
containment test. -/
noncomputable def applyBoxSelection (multiSelectMode : Bool)
    (selectionBox : SelectionBox) (el : Element) : Element :=
  if multiSelectMode = true then
    { el with selected :=
        if isElementInSelectionBox el selectionBox then !el.selected
        else el.selected }
  else
    { el with selected := decide (isElementInSelectionBox el selectionBox) }

/-- Drawing branch of `handleMouseMove`: only the last-added element is the
live target; freehand appends the pointer to its point list, rectangle sets
`width`/`height` (Shift forces `|width| = |height|` preserving signs),
circle sets the radius to the Euclidean distance from its center, and
line/arrow set the second point (Shift snaps to 45° increments preserving
distance). -/
noncomputable def handleMouseMoveDrawing (s : AppState) (x y : ℝ)
    (shiftKey : Bool) : AppState :=
  let elements := s.history.present
  match elements.getLast? with
  | none => s
  | some lastElement =>
      let lastIdx := elements.length - 1
      if s.tool = .freehand ∧ lastElement.points ≠ none then
        setPresent s (mapIdxFrom (fun i el =>
          if i = lastIdx then freehandAppend x y el else el) 0 elements)
      else if s.tool = .rectangle then
        setPresent s (mapIdxFrom (fun i el =>
          if i = lastIdx then rectangleDrawResize x y shiftKey el else el) 0 elements)
      else if s.tool = .circle then
        setPresent s (mapIdxFrom (fun i el =>
          if i = lastIdx then circleDrawResize x y el else el) 0 elements)
      else if (s.tool = .line ∨ s.tool = .arrow) ∧ lastElement.points ≠ none then
        setPresent s (mapIdxFrom (fun i el =>
          if i = lastIdx then lineDrawUpdate x y shiftKey el else el) 0 elements)
      else s

/-- Moving branch of `handleMouseMove`: apply the delta since the last move
event to every selected element (Shift constrains to the dominant axis),
refresh `selectedElement` from the updated scene, and rebase `startPoint`. -/
noncomputable def handleMouseMoveMoving (s : AppState) (startPoint : Pt)
    (x y : ℝ) (shiftKey : Bool) : AppState :=
  let dx := x - startPoint.x
  let dy := y - startPoint.y
  let constrainedDx := if shiftKey = true then (if |dx| > |dy| then dx else 0) else dx
  let constrainedDy := if shiftKey = true then (if |dy| > |dx| then dy else 0) else dy
  let updatedElements := s.history.present.map
    (moveSelectedBy constrainedDx constrainedDy)
  let s1 := setPresent s updatedElements
  let s2 :=
    match s.selectedElement with
    | some selectedElement =>
        if selectedElement.selected = true then
          match updatedElements.find? (fun el : Element => el.id == selectedElement.id) with
          | some u => { s1 with selectedElement := some u }
          | none => s1
        else s1
    | none => s1
  { s2 with startPoint := some ⟨x, y⟩ }

/-- Source test `activeHandle.includes("top") || activeHandle.includes("bottom")`
on the handle's name string: true exactly for the six handles whose name
contains `top` or `bottom`. -/
def handleIsVertical : HandlePosition → Bool
  | .topLeft | .top | .topRight | .bottomLeft | .bottom | .bottomRight => true
  | _ => false

/-- The non-rotation resize update applied to the selected element
(rectangle corner/edge handles with optional aspect-ratio lock and
negative-extent flip, circle radius handles, line/arrow endpoint handles
with optional 45° snap, text corner moves). -/
noncomputable def resizeElement (activeHandle : HandlePosition) (x y : ℝ)
    (shiftKey : Bool) (el : Element) : Element :=
  match el.type with
  | .rectangle =>
      let w0 := orZero el.width
      let h0 := orZero el.height
      let nXYWH :=
        match activeHandle with
        | .topLeft => (x, y, el.x + w0 - x, el.y + h0 - y)
        | .top => (el.x, y, w0, el.y + h0 - y)
        | .topRight => (el.x, y, x - el.x, el.y + h0 - y)
        | .left => (x, el.y, el.x + w0 - x, h0)
        | .right => (el.x, el.y, x - el.x, h0)
        | .bottomLeft => (x, el.y, el.x + w0 - x, y - el.y)
        | .bottom => (el.x, el.y, w0, y - el.y)
        | .bottomRight => (el.x, el.y, x - el.x, y - el.y)
        | _ => (el.x, el.y, w0, h0)
      let nX := nXYWH.1
      let nY := nXYWH.2.1
      let nW := nXYWH.2.2.1
      let nH := nXYWH.2.2.2
      let nWH :=
        if shiftKey = true ∧ nW ≠ 0 ∧ nH ≠ 0 then
          let aspectRatio := (if orZero el.width = 0 then 1 else orZero el.width) /
                             (if orZero el.height = 0 then 1 else orZero el.height)
          if handleIsVertical activeHandle = true then (nH * aspectRatio, nH)
          else (nW, nW / aspectRatio)
        else (nW, nH)
      let nW := nWH.1
      let nH := nWH.2
      let nXW := if nW < 0 then (nX + nW, |nW|) else (nX, nW)
      let nYH := if nH < 0 then (nY + nH, |nH|) else (nY, nH)
      { el with x := nXW.1, y := nYH.1, width := some nXW.2, height := some nYH.2 }
  | .circle =>
      let newRadius :=
        match activeHandle with
        | .top => |y - el.y|
        | .right => |x - el.x|
        | .bottom => |y - el.y|
        | .left => |x - el.x|
        | _ => orZero el.radius
      { el with radius := some newRadius }
  | .line | .arrow =>
      match el.points with
      | none => el
      | some points =>
          let newPoints :=
            if activeHandle = .lineStart ∧ 0 < points.length then
              if shiftKey = true ∧ 1 < points.length then
                let stop := points.getD 1 ⟨0, 0⟩
                let dx := stop.x - x
                let dy := stop.y - y
                let angle := atan2 dy dx
                let snapAngle := ((round (angle / (Real.pi / 4)) : ℤ) : ℝ) * (Real.pi / 4)
                let distance := Real.sqrt (dx * dx + dy * dy)
                points.set 0 ⟨stop.x - distance * Real.cos snapAngle,
                              stop.y - distance * Real.sin snapAngle⟩
              else points.set 0 ⟨x, y⟩
            else if activeHandle = .lineEnd ∧ 1 < points.length then
              if shiftKey = true then
                let start := points.getD 0 ⟨0, 0⟩
                let dx := x - start.x
                let dy := y - start.y
                let angle := atan2 dy dx
                let snapAngle := ((round (angle / (Real.pi / 4)) : ℤ) : ℝ) * (Real.pi / 4)
                let distance := Real.sqrt (dx * dx + dy * dy)
                points.set 1 ⟨start.x + distance * Real.cos snapAngle,
                              start.y + distance * Real.sin snapAngle⟩
              else points.set 1 ⟨x, y⟩
            else points
          { el with points := some newPoints }
  | .text =>
      let nX := if activeHandle = .topLeft ∨ activeHandle = .bottomLeft then x else el.x
      let nY := if activeHandle = .topLeft ∨ activeHandle = .topRight then y + 16 else el.y
      { el with x := nX, y := nY }
  | _ => el

/-- `const updatedElement = updatedElements.find(el => el.id === id);
if (updatedElement) setSelectedElement(updatedElement)`. -/
def updateSelectedFromPresent (s : AppState) (selId : String) : AppState :=
  match s.history.present.find? (fun el => el.id == selId) with
  | some updatedElement => { s with selectedElement := some updatedElement }
  | none => s

/-- Resizing branch of `handleMouseMove`: on the rotation handle the new
rotation is `atan2(pointer − pivot)` in degrees plus 90 (Shift snaps to 15°
increments); on the other handles `resizeElement` applies.  Both update
only the present scene (live edit). -/
noncomputable def handleMouseMoveResizing (s : AppState) (x y : ℝ)
    (shiftKey : Bool) : AppState :=
  match s.selectedElement, s.activeHandle with
  | some selectedElement, some activeHandle =>
      if activeHandle = .rotation then
        let updatedElements := s.history.present.map fun el =>
          if el.id == selectedElement.id then rotateElementTo x y shiftKey el
          else el
        updateSelectedFromPresent (setPresent s updatedElements) selectedElement.id
      else
        let updatedElements := s.history.present.map fun el =>
          if el.id == selectedElement.id then
            resizeElement activeHandle x y shiftKey el
          else el
        updateSelectedFromPresent (setPresent s updatedElements) selectedElement.id
  | _, _ => s

/-- Source `handleMouseMove`: early return unless an action is in progress
with a recorded `startPoint`; then dispatch on the action.  Live edits
(`drawing`/`moving`/`resizing`) update only `present`; `selecting` updates
only the transient selection box. -/
noncomputable def handleMouseMove (s : AppState) (x y : ℝ)
    (shiftKey : Bool) : AppState :=
  match s.startPoint with
  | none => s
  | some startPoint =>
      if s.action = .idle then s
      else if s.action = .selecting then
        match s.selectionBox with
        | some selectionBox =>
            { s with selectionBox := some { selectionBox with
                width := x - selectionBox.startX,
                height := y - selectionBox.startY } }
        | none => s
      else if s.action = .drawing then handleMouseMoveDrawing s x y shiftKey
      else if s.action = .moving then handleMouseMoveMoving s startPoint x y shiftKey
      else if s.action = .resizing then handleMouseMoveResizing s x y shiftKey
      else s

/-- Source `handleMouseUp`: a `drawing`/`moving`/`resizing` gesture commits
the live-edited `present` by pushing it onto `past` (and clearing
`future`); a `selecting` gesture applies `isElementInSelectionBox` to every
element (toggling under multi-select) and commits, unless the released box
is below the 5×5 minimum; transient gesture state is always cleared. -/
noncomputable def handleMouseUp (s : AppState) : AppState :=
  let s1 :=
    if s.action = .drawing ∨ s.action = .moving ∨ s.action = .resizing then
      { s with history :=
          { past := takeLast MAX_HISTORY_LENGTH (s.history.past ++ [s.history.present])
            present := s.history.present
            future := [] } }
    else if s.action = .selecting then
      match s.selectionBox with
      | some selectionBox =>
          let isSelectionTooSmall := |selectionBox.width| < 5 ∧ |selectionBox.height| < 5
          let s2 :=
            if isSelectionTooSmall then s
            else
              let updatedElements := s.history.present.map
                (applyBoxSelection s.multiSelectMode selectionBox)
              let s3 := { s with history := updateHistory s.history updatedElements }
              { s3 with selectedElement := updatedElements.find? (fun el => el.selected) }
          { s2 with selectionBox := none }
      | none => s
    else s
  { s1 with action := .idle, startPoint := none, activeHandle := none }

/-- Escape: deselect all elements (committed) when anything was selected. -/
def handleEscape (s : AppState) : AppState :=
  if s.history.present.any (fun el => el.selected) then
    { s with
      history := updateHistory s.history
        (s.history.present.map fun el => { el with selected := false })
      selectedElement := none }
  else s

/-- Ctrl/Cmd+A: select every element (committed); the first element becomes
the primary selection when nothing was primary before. -/
def handleSelectAll (s : AppState) : AppState :=
  let updatedElements := s.history.present.map fun el => { el with selected := true }
  let s1 := { s with history := updateHistory s.history updatedElements }
  match s.selectedElement, updatedElements with
  | none, first :: _ => { s1 with selectedElement := some first }
  | _, _ => s1

/-- Ctrl/Cmd+C: deep-copy the selected elements into the clipboard with
fresh ids (`Date.now().toString() + Math.random()...` per element); no-op
on empty selection; the scene is untouched. -/
def copySelected (now : Nat) (rand : Nat → String) (s : AppState) : AppState :=
  let selectedElements := s.history.present.filter (fun el => el.selected)
  if selectedElements.length > 0 then
    { s with clipboard :=
        mapIdxFrom (fun i el => { el with id := mintId2 now (rand i) }) 0 selectedElements }
  else s

/-- Ctrl/Cmd+X: like copy, then remove the selected elements from the
scene (committed) and clear the primary selection. -/
def cutSelected (now : Nat) (rand : Nat → String) (s : AppState) : AppState :=
  let selectedElements := s.history.present.filter (fun el => el.selected)
  if selectedElements.length > 0 then
    let copiedElements :=
      mapIdxFrom (fun i el => { el with id := mintId2 now (rand i) }) 0 selectedElements
    let updatedElements := s.history.present.filter (fun el => !el.selected)
    { s with clipboard := copiedElements,
             history := updateHistory s.history updatedElements,
             selectedElement := none }
  else s

/-- One pasted/duplicated copy of a clipboard or selected element: fresh
id, marked selected, `x`/`y` offset by +20/+20, and — for `line`/`arrow`
elements that carry a point list — every point offset by +20/+20 as well. -/
def pasteShift (freshId : String) (el : Element) : Element :=
  let newElement := { el with id := freshId, selected := true,
                              x := el.x + 20, y := el.y + 20 }
  if (el.type = .line ∨ el.type = .arrow) ∧ el.points.isSome then
    { newElement with points := some ((el.points.getD []).map fun p =>
        ⟨p.x + 20, p.y + 20⟩) }
  else newElement

/-- Ctrl/Cmd+V: no-op on empty clipboard; otherwise deselect the current
scene, append shifted copies of the clipboard (fresh id per element),
commit once, and make the first pasted element primary.  The clipboard
itself is read, never written. -/
def pasteClipboard (now : Nat) (rand : Nat → String) (s : AppState) : AppState :=
  match s.clipboard with
  | [] => s
  | _ =>
      let deselectedElements := s.history.present.map fun el =>
        { el with selected := false }
      let pastedElements :=
        mapIdxFrom (fun i el => pasteShift (mintId2 now (rand i)) el) 0 s.clipboard
      let s1 := { s with
        history := updateHistory s.history (deselectedElements ++ pastedElements) }
      match pastedElements with
      | first :: _ => { s1 with selectedElement := some first }
      | [] => s1

/-- Ctrl/Cmd+D: like paste but sourced from the current selection instead
of the clipboard; no-op on empty selection. -/
def duplicateSelected (now : Nat) (rand : Nat → String) (s : AppState) : AppState :=
  let selectedElements := s.history.present.filter (fun el => el.selected)
  if selectedElements.length > 0 then
    let deselectedElements := s.history.present.map fun el =>
      { el with selected := false }
    let duplicatedElements :=
      mapIdxFrom (fun i el => pasteShift (mintId2 now (rand i)) el) 0 selectedElements
    let s1 := { s with
      history := updateHistory s.history (deselectedElements ++ duplicatedElements) }
    match duplicatedElements with
    | first :: _ => { s1 with selectedElement := some first }
    | [] => s1
  else s

/-- Delete/Backspace (and the panel's delete button): drop every selected
element (committed) and clear the primary selection. -/
def handleDeleteSelectedElements (s : AppState) : AppState :=
  { s with
    history := updateHistory s.history (s.history.present.filter (fun el => !el.selected)),
    selectedElement := none }

/-- Source `handleKeyDown` delete shortcut: guarded by
`elements.some(el => el.selected)`. -/
def handleDeleteKey (s : AppState) : AppState :=
  if s.history.present.any (fun el => el.selected) then
    handleDeleteSelectedElements s
  else s

/-- Source `elements.find((element) => element.type === "text" &&
isPointInElement(x, y, element))` of `handleDoubleClick`. -/
noncomputable def findTextElement (x y : ℝ) : List Element → Option Element
  | [] => none
  | el :: rest =>
      if el.type = .text ∧ isPointInElement x y el then some el
      else findTextElement x y rest

/-- Double-click text editing (`handleDoubleClick` + `saveText`): find the
text element under the point, replace its text with the committed editor
value (editing always commits), and refresh the primary selection if it
was the edited element. -/
noncomputable def handleTextEdit (s : AppState) (x y : ℝ) (newText : String) : AppState :=
  match findTextElement x y s.history.present with
  | none => s
  | some textElement =>
      let updatedElements := s.history.present.map fun el =>
        if el.id == textElement.id then { el with text := some newText } else el
      let s1 := { s with history := updateHistory s.history updatedElements }
      match s.selectedElement with
      | some selectedElement =>
          if selectedElement.id == textElement.id then
            { s1 with selectedElement := some { selectedElement with text := some newText } }
          else s1
      | none => s1

/-- The closed set of property edits the properties panel actually issues
through the source's dynamically-typed `updateElementProperty(property,
value)` (a design note of the spec replaces the `any`-typed setter with a
tagged variant; the undefined-substitution guard of the source is
unreachable for these typed payloads). -/
inductive PropEdit
  | xPos (v : ℝ)
  | yPos (v : ℝ)
  | width (v : ℝ)
  | height (v : ℝ)
  | radius (v : ℝ)
  | textVal (v : String)
  | rotation (v : ℝ)
  | stroke (v : String)
  | strokeW (v : ℝ)
  | fillCol (v : String)

/-- Apply one property edit to one element (`{ ...el, [property]: value }`). -/
def applyPropEdit : PropEdit → Element → Element
  | .xPos v, el => { el with x := v }
  | .yPos v, el => { el with y := v }
  | .width v, el => { el with width := some v }
  | .height v, el => { el with height := some v }
  | .radius v, el => { el with radius := some v }
  | .textVal v, el => { el with text := some v }
  | .rotation v, el => { el with rotation := some v }
  | .stroke v, el => { el with stroke := v }
  | .strokeW v, el => { el with strokeWidth := v }
  | .fillCol v, el => { el with fill := v }

/-- Source `updateElementProperty`: guarded by a non-empty selection;
applies the edit to every selected element (committed) and mirrors it on
the primary selection. -/
def updateElementProperty (s : AppState) (p : PropEdit) : AppState :=
  if s.history.present.any (fun el => el.selected) then
    let updatedElements := s.history.present.map fun el =>
      if el.selected then applyPropEdit p el else el
    let s1 := { s with history := updateHistory s.history updatedElements }
    match s.selectedElement with
    | some selectedElement =>
        { s1 with selectedElement := some (applyPropEdit p selectedElement) }
    | none => s1
  else s

/-- Undo at the app level: only the history changes (the source does not
touch `selectedElement` or the transient gesture state here). -/
def appUndo (s : AppState) : AppState := { s with history := handleUndo s.history }

/-- Redo at the app level. -/
def appRedo (s : AppState) : AppState := { s with history := handleRedo s.history }

/-- Tool switch (toolbar button or single-letter shortcut). -/
def appSetTool (s : AppState) (t : ElementType) : AppState := { s with tool := t }

/-- One interaction event of the state machine: the pointer events, the
scene-mutating keyboard shortcuts, text editing, the panel's property
edits and tool switches.  `now` models `Date.now()` at the instant the
event is handled and `rand` the per-element `Math.random()` draws. -/
inductive Event
  | mouseDown (now : Nat) (x y : ℝ) (shift alt : Bool)
  | mouseMove (x y : ℝ) (shift : Bool)
  | mouseUp
  | keyEscape
  | keySelectAll
  | keyCopy (now : Nat) (rand : Nat → String)
  | keyCut (now : Nat) (rand : Nat → String)
  | keyPaste (now : Nat) (rand : Nat → String)
  | keyDuplicate (now : Nat) (rand : Nat → String)
  | keyDelete
  | keyUndo
  | keyRedo
  | textEdit (x y : ℝ) (newText : String)
  | propEdit (p : PropEdit)
  | selectTool (t : ElementType)

/-- The interaction state machine: dispatch one event to its handler. -/
noncomputable def step (s : AppState) : Event → AppState
  | .mouseDown now x y shift alt => handleMouseDown s now x y shift alt
  | .mouseMove x y shift => handleMouseMove s x y shift
  | .mouseUp => handleMouseUp s
  | .keyEscape => handleEscape s
  | .keySelectAll => handleSelectAll s
  | .keyCopy now rand => copySelected now rand s
  | .keyCut now rand => cutSelected now rand s
  | .keyPaste now rand => pasteClipboard now rand s
  | .keyDuplicate now rand => duplicateSelected now rand s
  | .keyDelete => handleDeleteKey s
  | .keyUndo => appUndo s
  | .keyRedo => appRedo s
  | .textEdit x y newText => handleTextEdit s x y newText
  | .propEdit p => updateElementProperty s p
  | .selectTool t => appSetTool s t

/-- Modelled from the spec (§4.1): the perpendicular distance from the
point `(px, py)` to the *infinite* line through `a` and `b`, in the
standard closed form `|(b − a) × (p − a)| / ‖b − a‖`.  The theorem
`perpDistToLine_is_min_dist` below certifies that for `a ≠ b` this is the
minimum distance to the points of the line, so the name is deserved. -/
noncomputable def perpDistToLine (px py : ℝ) (a b : Pt) : ℝ :=
  |(b.x - a.x) * (py - a.y) - (b.y - a.y) * (px - a.x)| /
    Real.sqrt ((b.x - a.x) ^ 2 + (b.y - a.y) ^ 2)

/-- Modelled from the spec (§3, §4.1): the normalized selection box
covering the same region — origin at the min corner, non-negative
extents. -/
noncomputable def normalizeBox (b : SelectionBox) : SelectionBox :=
  { startX := min b.startX (b.startX + b.width)
    startY := min b.startY (b.startY + b.height)
    width := |b.width|
    height := |b.height| }

/-- The geometric payload of an element that paste must offset: position
and stored point list (ids and styling aside). -/
def elCoords (el : Element) : ℝ × ℝ × Option (List Pt) := (el.x, el.y, el.points)

/-- No element of the list has kind `freehand`. -/
def NoFreehandList (els : List Element) : Prop :=
  ∀ el ∈ els, el.type ≠ ElementType.freehand

/-- No scene reachable from the history (present or any snapshot) holds a
`freehand` element. -/
def NoFreehandHist (h : History) : Prop :=
  NoFreehandList h.present ∧
  (∀ sc ∈ h.past, NoFreehandList sc) ∧
  (∀ sc ∈ h.future, NoFreehandList sc)

/-- The app-level no-freehand invariant: scene, snapshots and clipboard. -/
def NoFreehandState (s : AppState) : Prop :=
  NoFreehandHist s.history ∧ NoFreehandList s.clipboard

/-- Sample rectangle `A` at the origin, 10×10. -/
def rectA : Element :=
  { id := "A", type := .rectangle, x := 0, y := 0, width := some 10,
    height := some 10, fill := "transparent", stroke := "black",
    strokeWidth := 2, isDragging := false }

/-- Sample rectangle `B`: same 10×10 region as `rectA`, added later. -/
def rectB : Element :=
  { id := "B", type := .rectangle, x := 0, y := 0, width := some 10,
    height := some 10, fill := "transparent", stroke := "black",
    strokeWidth := 2, isDragging := false }

/-- Sample element whose id is the millisecond string `"100"` (as minted
for an element drawn at `Date.now() = 100`). -/
def rect100 : Element :=
  { id := "100", type := .rectangle, x := 0, y := 0, width := some 10,
    height := some 10, fill := "transparent", stroke := "black",
    strokeWidth := 2, isDragging := false }

/-- Sample line from `(0, 0)` to `(100, 0)`. -/
def lineSample : Element :=
  { id := "L", type := .line, x := 0, y := 0,
    points := some [⟨0, 0⟩, ⟨100, 0⟩], fill := "transparent",
    stroke := "black", strokeWidth := 2, isDragging := false }

/-- A line whose two endpoints coincide — exactly the shape a line/arrow is
seeded in on pointer-down. -/
def lineDegenerate : Element :=
  { id := "D", type := .line, x := 0, y := 0,
    points := some [⟨3, 4⟩, ⟨3, 4⟩], fill := "transparent",
    stroke := "black", strokeWidth := 2, isDragging := false }

/-- Rectangle with negative width: drawn from `x = 50` leftwards, covering
the region `[0, 50] × [0, 10]`. -/
def negRect : Element :=
  { id := "N", type := .rectangle, x := 50, y := 0, width := some (-50),
    height := some 10, fill := "transparent", stroke := "black",
    strokeWidth := 2, isDragging := false }

/-- The normalized rectangle covering the same region as `negRect`:
origin at the min corner, positive extents. -/
def normRect : Element :=
  { id := "N", type := .rectangle, x := 0, y := 0, width := some 50,
    height := some 10, fill := "transparent", stroke := "black",
    strokeWidth := 2, isDragging := false }

/-- An idle app state over the given scene (fresh history, selection tool,
nothing selected, empty clipboard). -/
def initState (els : List Element) : AppState :=
  { history := { past := [], present := els, future := [] }
    selectedElement := none
    tool := .selection
    action := .idle
    startPoint := none
    activeHandle := none
    clipboard := []
    selectionBox := none
    multiSelectMode := false
    color := "black"
    strokeWidth := 2
    fill := "transparent" }

/-- Sample clipboard element at `(5, 5)` for the paste witness. -/
def clipElem : Element :=
  { id := "C", type := .rectangle, x := 5, y := 5, width := some 10,
    height := some 10, fill := "transparent", stroke := "black",
    strokeWidth := 2, isDragging := false }

/-- App state with one element on the clipboard, for the paste witness. -/
def pasteState : AppState := { initState [] with clipboard := [clipElem] }

/-- A fixed entropy stream for witnesses. -/
def randW : Nat → String := fun _ => "r"

/-- Sample selection box anchored at `(100, 100)` extending up-left. -/
def boxW : SelectionBox :=
  { startX := 100, startY := 100, width := -200, height := -200 }

/-- One pointer-move event `(x, y, shiftKey)` of a drag gesture. -/
noncomputable def applyMoves (moves : List (ℝ × ℝ × Bool)) (s : AppState) : AppState :=
  moves.foldl (fun st m => handleMouseMove st m.1 m.2.1 m.2.2) s

theorem takeLast_length {α : Type _} (n : Nat) (l : List α) :
    (takeLast n l).length = l.length - (l.length - n) := by
  simp [takeLast]

theorem takeLast_concat {α : Type _} (n : Nat) (hn : 1 ≤ n) (l : List α) (a : α) :
    takeLast n (l ++ [a]) = l.drop (l.length + 1 - n) ++ [a] := by
  unfold takeLast
  rw [List.drop_append_eq_append_drop]
  have h1 : (l ++ [a]).length - n = l.length + 1 - n := by simp
  have h2 : l.length + 1 - n ≤ l.length := by omega
  rw [h1, Nat.sub_eq_zero_of_le h2]
  simp

theorem takeLast_subset {α : Type _} (n : Nat) (l : List α) :
    ∀ a ∈ takeLast n l, a ∈ l := by
  intro a ha
  exact List.drop_subset _ l ha

theorem takeLast_append_right {α : Type _} {n : Nat} (l₁ l₂ : List α)
    (h : l₂.length = n) : takeLast n (l₁ ++ l₂) = l₂ := by
  unfold takeLast
  rw [List.length_append, h, Nat.add_sub_cancel, List.drop_left]

theorem mapIdxFrom_length {α : Type _} (f : Nat → α → α) (i : Nat) (l : List α) :
    (mapIdxFrom f i l).length = l.length := by
  induction l generalizing i with
  | nil => rfl
  | cons a l ih => simp [mapIdxFrom, ih]

/-- C1: committing a scene `S` (`updateHistory`) and then undoing restores
exactly the pre-commit present scene; redoing after that undo restores `S`
exactly (the scenes are structurally equal lists of elements). -/
theorem undo_redo_roundtrip_after_commit (h : History) (S : List Element) :
    (handleUndo (updateHistory h S)).present = h.present ∧
    (handleRedo (handleUndo (updateHistory h S))).present = S := by
  have h50 : 1 ≤ MAX_HISTORY_LENGTH := by norm_num [MAX_HISTORY_LENGTH]
  have hlast := takeLast_concat MAX_HISTORY_LENGTH h50 h.past h.present
  have hundo : handleUndo (updateHistory h S) =
      { past := (takeLast MAX_HISTORY_LENGTH (h.past ++ [h.present])).dropLast
        present := h.present
        future := (S :: []).take MAX_HISTORY_LENGTH } := by
    unfold handleUndo updateHistory
    rw [hlast]
    simp [List.getLast?_concat]
  refine ⟨by rw [hundo], ?_⟩
  rw [hundo]
  have htake : (S :: []).take MAX_HISTORY_LENGTH = [S] := by
    apply List.take_of_length_le
    simp [MAX_HISTORY_LENGTH]
  unfold handleRedo
  rw [htake]

/-- C5: every commit (`updateHistory`) clears `future`; `undo` never
empties a non-empty `future`; `redo` only pops a single entry off the
front of `future`; and `redo` immediately after any commit — in
particular after `undo` followed by a fresh commit — is a no-op, leaving
the history state unchanged. -/
theorem only_commit_clears_future :
    (∀ (h : History) (S : List Element), (updateHistory h S).future = []) ∧
    (∀ h : History, h.future ≠ [] → (handleUndo h).future ≠ []) ∧
    (∀ (h : History) (f : List Element) (fs : List (List Element)),
        h.future = f :: fs → (handleRedo h).future = fs) ∧
    (∀ (h : History) (S : List Element),
        handleRedo (updateHistory h S) = updateHistory h S) := by
  refine ⟨fun h S => rfl, ?_, ?_, fun h S => rfl⟩
  · intro h hf
    unfold handleUndo
    cases hpl : h.past.getLast? with
    | none => simpa using hf
    | some a => simp [MAX_HISTORY_LENGTH]
  · intro h f fs hf
    unfold handleRedo
    rw [hf]

/-- Witness for `only_commit_clears_future` at concrete histories. -/
theorem only_commit_clears_future_witness :
    (handleUndo { past := [[rectA]], present := [], future := [[rectB]] }).future ≠ [] ∧
    (handleRedo { past := [], present := [], future := [rectA] :: [] }).future = [] ∧
    handleRedo (updateHistory { past := [], present := [], future := [] } [rectA]) =
      updateHistory { past := [], present := [], future := [] } [rectA] :=
  ⟨only_commit_clears_future.2.1 _ (by simp),
   only_commit_clears_future.2.2.1 _ [rectA] [] rfl,
   only_commit_clears_future.2.2.2 _ _⟩

theorem sq_add_sq_pos_of_ne {a b c d : ℝ} (h : ¬(a = c ∧ b = d)) :
    0 < (c - a) ^ 2 + (d - b) ^ 2 := by
  rcases lt_or_le 0 ((c - a) ^ 2 + (d - b) ^ 2) with hpos | hle
  · exact hpos
  · exfalso
    have h1 : (c - a) ^ 2 = 0 := by nlinarith [sq_nonneg (c - a), sq_nonneg (d - b)]
    have h2 : (d - b) ^ 2 = 0 := by nlinarith [sq_nonneg (c - a), sq_nonneg (d - b)]
    exact h ⟨by nlinarith [sq_abs (c - a)], by nlinarith [sq_abs (d - b)]⟩

/-- For distinct base points, `perpDistToLine` is a lower bound on the
distance to every point of the infinite line through them, attained at the
foot of the perpendicular: it really is the point-to-line distance. -/
theorem perpDistToLine_is_min_dist (px py : ℝ) (a b : Pt) (hne : a ≠ b) :
    (∀ t : ℝ,
        perpDistToLine px py a b ≤
          Real.sqrt ((px - (a.x + t * (b.x - a.x))) ^ 2 +
                     (py - (a.y + t * (b.y - a.y))) ^ 2)) ∧
    (∃ t : ℝ,
        perpDistToLine px py a b =
          Real.sqrt ((px - (a.x + t * (b.x - a.x))) ^ 2 +
                     (py - (a.y + t * (b.y - a.y))) ^ 2)) := by
  have hcoord : ¬(a.x = b.x ∧ a.y = b.y) := by
    intro hc
    exact hne (Pt.ext hc.1 hc.2)
  have hpos : 0 < (b.x - a.x) ^ 2 + (b.y - a.y) ^ 2 := sq_add_sq_pos_of_ne hcoord
  have hsq : Real.sqrt ((b.x - a.x) ^ 2 + (b.y - a.y) ^ 2) ^ 2 =
      (b.x - a.x) ^ 2 + (b.y - a.y) ^ 2 := Real.sq_sqrt hpos.le
  have hsqrtpos : 0 < Real.sqrt ((b.x - a.x) ^ 2 + (b.y - a.y) ^ 2) :=
    Real.sqrt_pos.mpr hpos
  constructor
  · intro t
    have habs : |(b.x - a.x) * (py - a.y) - (b.y - a.y) * (px - a.x)| =
        Real.sqrt (((b.x - a.x) * (py - a.y) - (b.y - a.y) * (px - a.x)) ^ 2) := by
      rw [Real.sqrt_sq_eq_abs]
    rw [perpDistToLine, div_le_iff₀ hsqrtpos, habs, ← Real.sqrt_mul (by positivity)]
    apply Real.sqrt_le_sqrt
    nlinarith [sq_nonneg (((px - a.x) * (b.x - a.x) + (py - a.y) * (b.y - a.y)) -
      t * ((b.x - a.x) ^ 2 + (b.y - a.y) ^ 2))]
  · set t0 := ((px - a.x) * (b.x - a.x) + (py - a.y) * (b.y - a.y)) /
      ((b.x - a.x) ^ 2 + (b.y - a.y) ^ 2) with ht0
    refine ⟨t0, ?_⟩
    have hperp_nonneg : 0 ≤ perpDistToLine px py a b := by
      rw [perpDistToLine]; positivity
    have hD : (px - (a.x + t0 * (b.x - a.x))) ^ 2 + (py - (a.y + t0 * (b.y - a.y))) ^ 2
        = perpDistToLine px py a b ^ 2 := by
      have hls : ((b.x - a.x) ^ 2 + (b.y - a.y) ^ 2) ≠ 0 := ne_of_gt hpos
      rw [perpDistToLine, div_pow, Real.sq_sqrt hpos.le, sq_abs, ht0]
      field_simp
      ring
    rw [hD, Real.sqrt_sq hperp_nonneg]

/-- C7: for a line or arrow element with two distinct stored endpoints, the
point-in-element test succeeds exactly when the perpendicular distance from
the query point to the *infinite* line through the endpoints is strictly
below the 10-unit threshold — independent of the segment's own bounds. -/
theorem line_hit_iff_perpDist_lt_ten (el : Element) (p1 p2 : Pt) (rest : List Pt)
    (x y : ℝ) (htype : el.type = ElementType.line ∨ el.type = ElementType.arrow)
    (hpts : el.points = some (p1 :: p2 :: rest)) (hne : p1 ≠ p2) :
    isPointInElement x y el ↔ perpDistToLine x y p1 p2 < 10 := by
  have hcoord : ¬(p1.x = p2.x ∧ p1.y = p2.y) := by
    intro hc
    exact hne (Pt.ext hc.1 hc.2)
  have hpos : 0 < (p2.x - p1.x) ^ 2 + (p2.y - p1.y) ^ 2 := sq_add_sq_pos_of_ne hcoord
  have hlen : Real.sqrt ((p2.x - p1.x) ^ 2 + (p2.y - p1.y) ^ 2) ≠ 0 :=
    ne_of_gt (Real.sqrt_pos.mpr hpos)
  have hnum : |(p2.x - p1.x) * (y - p1.y) - (p2.y - p1.y) * (x - p1.x)| =
      |(p2.y - p1.y) * x - (p2.x - p1.x) * y + p2.x * p1.y - p2.y * p1.x| := by
    rw [show (p2.x - p1.x) * (y - p1.y) - (p2.y - p1.y) * (x - p1.x) =
        -((p2.y - p1.y) * x - (p2.x - p1.x) * y + p2.x * p1.y - p2.y * p1.x) by ring]
    exact abs_neg _
  rcases htype with ht | ht <;>
    simp only [isPointInElement, ht, hpts, perpDistToLine, hnum] <;>
    exact ⟨fun hh => hh.2, fun hh => ⟨hlen, hh⟩⟩

/-- Witness for `line_hit_iff_perpDist_lt_ten` on the line from `(0,0)` to
`(100,0)`: `(50, 9)` is a hit, `(50, 11)` is not, and `(1000, 5)` — far
beyond the segment's end but within 10 units of its infinite extension —
is still a hit. -/
theorem line_hit_iff_perpDist_lt_ten_witness :
    isPointInElement 50 9 lineSample ∧ ¬ isPointInElement 50 11 lineSample ∧
    isPointInElement 1000 5 lineSample := by
  have hne : (⟨0, 0⟩ : Pt) ≠ ⟨100, 0⟩ := by
    intro hc
    have := congrArg Pt.x hc
    norm_num at this
  have hsqrt : Real.sqrt (((⟨100, 0⟩ : Pt).x - (⟨0, 0⟩ : Pt).x) ^ 2 +
      ((⟨100, 0⟩ : Pt).y - (⟨0, 0⟩ : Pt).y) ^ 2) = 100 := by
    show Real.sqrt ((100 - 0) ^ 2 + (0 - 0) ^ 2) = 100
    rw [show ((100 : ℝ) - 0) ^ 2 + (0 - 0) ^ 2 = 100 ^ 2 by norm_num]
    exact Real.sqrt_sq (by norm_num)
  have h1 := line_hit_iff_perpDist_lt_ten lineSample ⟨0, 0⟩ ⟨100, 0⟩ [] 50 9
    (Or.inl rfl) rfl hne
  have h2 := line_hit_iff_perpDist_lt_ten lineSample ⟨0, 0⟩ ⟨100, 0⟩ [] 50 11
    (Or.inl rfl) rfl hne
  have h3 := line_hit_iff_perpDist_lt_ten lineSample ⟨0, 0⟩ ⟨100, 0⟩ [] 1000 5
    (Or.inl rfl) rfl hne
  refine ⟨h1.mpr ?_, fun hh => ?_, h3.mpr ?_⟩
  · rw [perpDistToLine, hsqrt]
    norm_num
  · have := h2.mp hh
    rw [perpDistToLine, hsqrt] at this
    norm_num at this
  · rw [perpDistToLine, hsqrt]
    norm_num

/-- C10: the point-in-element test is total on degenerate segments — a
line or arrow whose two stored endpoints coincide (the state every
line/arrow is seeded in on pointer-down) is hit by no query point, because
the zero segment length makes the JS distance computation divide by zero
(`NaN`/`Infinity`), and those compare `false` against the threshold. -/
theorem degenerate_line_never_hit (el : Element) (p : Pt) (rest : List Pt)
    (x y : ℝ) (htype : el.type = ElementType.line ∨ el.type = ElementType.arrow)
    (hpts : el.points = some (p :: p :: rest)) :
    ¬ isPointInElement x y el := by
  intro hh
  have hzero : Real.sqrt ((p.x - p.x) ^ 2 + (p.y - p.y) ^ 2) = 0 := by
    rw [show (p.x - p.x) ^ 2 + (p.y - p.y) ^ 2 = 0 by ring]
    exact Real.sqrt_zero
  rcases htype with ht | ht <;> simp only [isPointInElement, ht, hpts] at hh <;>
    exact hh.1 hzero

/-- Witness for `degenerate_line_never_hit`: the degenerate sample line
(both endpoints `(3,4)`) is not hit, not even at `(3,4)` itself. -/
theorem degenerate_line_never_hit_witness :
    ¬ isPointInElement 3 4 lineDegenerate :=
  degenerate_line_never_hit lineDegenerate ⟨3, 4⟩ [] 3 4 (Or.inl rfl) rfl

/-- Counterexample to C8: `negRect` (origin `(50,0)`, width `−50`,
height `10`) covers the same region as the normalized `normRect`
(origin `(0,0)`, width `50`), yet the point `(10, 5)` inside that region
hits `normRect` and does not hit `negRect` — the rectangle branch of
`isPointInElement` does not min/max-normalize negative extents. -/
theorem negative_rect_hit_counterexample :
    isPointInElement 10 5 normRect ∧ ¬ isPointInElement 10 5 negRect := by
  constructor
  · simp only [isPointInElement, normRect, orZero, Option.getD_some]
    norm_num
  · intro hh
    simp only [isPointInElement, negRect, orZero, Option.getD_some] at hh
    norm_num at hh

/-- C8 amended: only the selection *box* is handled via min/max — box
containment is invariant under normalizing the box — while the rectangle
element's own negative extents are not normalized: a rectangle with
negative width or height contains no point at all (its coordinate
interval is empty), so `isPointInElement` can disagree with the
normalized rectangle covering the same region. -/
theorem negative_extent_behavior :
    (∀ (el : Element) (x y : ℝ), el.type = ElementType.rectangle →
        (orZero el.width < 0 ∨ orZero el.height < 0) →
        ¬ isPointInElement x y el) ∧
    (∀ (el : Element) (box : SelectionBox),
        isElementInSelectionBox el box ↔
        isElementInSelectionBox el (normalizeBox box)) := by
  constructor
  · intro el x y htype hneg hh
    simp only [isPointInElement, htype] at hh
    rcases hneg with hw | hw
    · linarith [hh.1, hh.2.1]
    · linarith [hh.2.2.1, hh.2.2.2]
  · intro el box
    have hL : selectionLeft (normalizeBox box) = selectionLeft box := by
      simp only [selectionLeft, normalizeBox]
      rw [if_pos (abs_nonneg box.width)]
      rcases le_or_lt 0 box.width with hw | hw
      · rw [if_pos hw, min_eq_left (by linarith)]
      · rw [if_neg (not_le.mpr hw), min_eq_right (by linarith)]
    have hR : selectionRight (normalizeBox box) = selectionRight box := by
      simp only [selectionRight, normalizeBox]
      rw [if_pos (abs_nonneg box.width)]
      rcases le_or_lt 0 box.width with hw | hw
      · rw [if_pos hw, min_eq_left (by linarith), abs_of_nonneg hw]
      · rw [if_neg (not_le.mpr hw), min_eq_right (by linarith), abs_of_neg hw]
        ring
    have hT : selectionTop (normalizeBox box) = selectionTop box := by
      simp only [selectionTop, normalizeBox]
      rw [if_pos (abs_nonneg box.height)]
      rcases le_or_lt 0 box.height with hw | hw
      · rw [if_pos hw, min_eq_left (by linarith)]
      · rw [if_neg (not_le.mpr hw), min_eq_right (by linarith)]
    have hB : selectionBottom (normalizeBox box) = selectionBottom box := by
      simp only [selectionBottom, normalizeBox]
      rw [if_pos (abs_nonneg box.height)]
      rcases le_or_lt 0 box.height with hw | hw
      · rw [if_pos hw, min_eq_left (by linarith), abs_of_nonneg hw]
      · rw [if_neg (not_le.mpr hw), min_eq_right (by linarith), abs_of_neg hw]
        ring
    simp only [isElementInSelectionBox, hL, hR, hT, hB]

/-- Witness for `negative_extent_behavior`: the negative-width sample
rectangle is unhittable, and containment of `rectA` in a concrete box is
unchanged by normalizing the box. -/
theorem negative_extent_behavior_witness :
    ¬ isPointInElement 3 3 negRect ∧
    (isElementInSelectionBox rectA boxW ↔
     isElementInSelectionBox rectA (normalizeBox boxW)) :=
  ⟨negative_extent_behavior.1 negRect 3 3 rfl
      (Or.inl (by simp only [negRect, orZero, Option.getD_some]; norm_num)),
   negative_extent_behavior.2 rectA _⟩

theorem isPointInElement_rectA : isPointInElement 5 5 rectA := by
  simp only [isPointInElement, rectA, orZero, Option.getD_some]
  norm_num

theorem isPointInElement_rectB : isPointInElement 5 5 rectB := by
  simp only [isPointInElement, rectB, orZero, Option.getD_some]
  norm_num

theorem handleMouseDown_no_handle_hit (s : AppState) (now : Nat) (x y : ℝ)
    (sh alt : Bool) (e : Element)
    (hsel : s.selectedElement = none)
    (hhit : findClickedElement x y s.history.present = some e) :
    handleMouseDown s now x y sh alt =
      handleMouseDownOnElement { s with multiSelectMode := sh } now x y sh alt
        s.history.present e := by
  unfold handleMouseDown
  simp only [hsel, hhit]

theorem handleMouseDown_empty_space (s : AppState) (now : Nat) (x y : ℝ)
    (sh alt : Bool)
    (hsel : s.selectedElement = none)
    (hhit : findClickedElement x y s.history.present = none) :
    handleMouseDown s now x y sh alt =
      handleMouseDownEmpty { s with multiSelectMode := sh } now x y sh := by
  unfold handleMouseDown
  simp only [hsel, hhit]

/-- C2 amended: pointer-down hit resolution scans the scene in *forward*
insertion order (`Array.prototype.find`), so when the down-point lies
inside more than one element the *first-added* (bottom-most) element
containing the point is chosen, not the most recently added one:
`findClickedElement` returns `e` exactly when `e` sits at some index whose
earlier indices all miss the point. -/
theorem findClickedElement_first_forward (x y : ℝ) (els : List Element)
    (e : Element) :
    findClickedElement x y els = some e ↔
      ∃ n : Nat, els[n]? = some e ∧ isPointInElement x y e ∧
        ∀ m : Nat, m < n → ∀ e', els[m]? = some e' → ¬ isPointInElement x y e' := by
  induction els generalizing e with
  | nil =>
      simp only [findClickedElement]
      constructor
      · intro hc
        cases hc
      · rintro ⟨n, hget, -, -⟩
        simp at hget
  | cons el rest ih =>
      by_cases hel : isPointInElement x y el
      · simp only [findClickedElement, if_pos hel]
        constructor
        · intro hc
          cases hc
          exact ⟨0, by simp, hel, fun m hm => absurd hm (Nat.not_lt_zero m)⟩
        · rintro ⟨n, hget, hhit, hmin⟩
          cases n with
          | zero =>
              simp only [List.getElem?_cons_zero, Option.some.injEq] at hget
              rw [hget]
          | succ n =>
              exact absurd hel (hmin 0 (Nat.succ_pos n) el (by simp))
      · simp only [findClickedElement, if_neg hel, ih]
        constructor
        · rintro ⟨n, hget, hhit, hmin⟩
          refine ⟨n + 1, by simpa using hget, hhit, ?_⟩
          intro m hm e' he'
          cases m with
          | zero =>
              simp only [List.getElem?_cons_zero, Option.some.injEq] at he'
              rw [← he']
              exact hel
          | succ m =>
              exact hmin m (Nat.lt_of_succ_lt_succ hm) e' (by simpa using he')
        · rintro ⟨n, hget, hhit, hmin⟩
          cases n with
          | zero =>
              simp only [List.getElem?_cons_zero, Option.some.injEq] at hget
              rw [hget] at hel
              exact absurd hhit hel
          | succ n =>
              refine ⟨n, by simpa using hget, hhit, ?_⟩
              intro m hm e' he'
              exact hmin (m + 1) (Nat.succ_lt_succ hm) e' (by simpa using he')

/-- Counterexample to C2: `rectA` and `rectB` both contain `(5, 5)`;
`rectB` is the most recently added, yet pointer-down resolves the hit to
`rectA` — the machine scans forward, not in reverse insertion order. -/
theorem hit_resolution_counterexample :
    isPointInElement 5 5 rectA ∧ isPointInElement 5 5 rectB ∧
    (handleMouseDown (initState [rectA, rectB]) 1 5 5 false false).selectedElement
      = some rectA ∧
    rectA ≠ rectB := by
  have hfind : findClickedElement 5 5 [rectA, rectB] = some rectA := by
    simp only [findClickedElement]
    rw [if_pos isPointInElement_rectA]
  refine ⟨isPointInElement_rectA, isPointInElement_rectB, ?_, ?_⟩
  · rw [handleMouseDown_no_handle_hit _ _ _ _ _ _ rectA rfl hfind]
    unfold handleMouseDownOnElement
    norm_num
    rfl
  · intro hc
    have := congrArg Element.id hc
    simp [rectA, rectB] at this

theorem isPointInElement_rect100 : isPointInElement 5 5 rect100 := by
  simp only [isPointInElement, rect100, orZero, Option.getD_some]
  norm_num

/-- C4 failing input (code bug): the scene holds an element whose id is
the millisecond string `"100"` (minted at `Date.now() = 100`); an
alt-drag duplicate started within the same millisecond mints
`Date.now().toString() = "100"` again, so the committed scene contains
two elements with equal ids — creation does not always mint an id
distinct from every existing id. -/
theorem altDuplicate_mints_colliding_id :
    ((handleMouseDown (initState [rect100]) 100 5 5 false true).history.present.map
        Element.id) = ["100", "100"] := by
  have hfind : findClickedElement 5 5 [rect100] = some rect100 := by
    simp only [findClickedElement]
    rw [if_pos isPointInElement_rect100]
  rw [handleMouseDown_no_handle_hit _ _ _ _ _ _ rect100 rfl hfind]
  unfold handleMouseDownOnElement
  norm_num
  simp [updateHistory, mintId, rect100, initState]
  decide

theorem handleMouseDownOnElement_commits (s : AppState) (now : Nat) (x y : ℝ)
    (sh alt : Bool) (els : List Element) (ce : Element) :
    (handleMouseDownOnElement s now x y sh alt els ce).history.past
        = takeLast MAX_HISTORY_LENGTH (s.history.past ++ [s.history.present]) ∧
    (handleMouseDownOnElement s now x y sh alt els ce).history.future = [] ∧
    (handleMouseDownOnElement s now x y sh alt els ce).action = ActionState.moving ∧
    (handleMouseDownOnElement s now x y sh alt els ce).startPoint = some ⟨x, y⟩ := by
  unfold handleMouseDownOnElement
  by_cases h1 : alt = true
  · simp only [if_pos h1]
    refine ⟨?_, ?_, ?_, ?_⟩ <;> trivial
  · simp only [if_neg h1]
    by_cases h2 : sh = false ∧ ce.selected = false
    · simp only [if_pos h2]
      refine ⟨?_, ?_, ?_, ?_⟩ <;> trivial
    · simp only [if_neg h2]
      by_cases h3 : ce.selected = false ∨ sh = false
      · simp only [if_pos h3]
        refine ⟨?_, ?_, ?_, ?_⟩ <;> trivial
      · simp only [if_neg h3]
        refine ⟨?_, ?_, ?_, ?_⟩ <;> trivial

theorem handleMouseMoveMoving_fields (s : AppState) (sp : Pt) (x y : ℝ)
    (sh : Bool) :
    (handleMouseMoveMoving s sp x y sh).history.past = s.history.past ∧
    (handleMouseMoveMoving s sp x y sh).history.future = s.history.future ∧
    (handleMouseMoveMoving s sp x y sh).action = s.action ∧
    (handleMouseMoveMoving s sp x y sh).startPoint = some ⟨x, y⟩ := by
  unfold handleMouseMoveMoving setPresent
  rcases hse : s.selectedElement with _ | sel
  · simp only [hse]
    refine ⟨?_, ?_, ?_, ?_⟩ <;> trivial
  · simp only [hse]
    by_cases h1 : sel.selected = true
    · simp only [if_pos h1]
      rcases hfind : (s.history.present.map (moveSelectedBy
          (if sh = true then (if |x - sp.x| > |y - sp.y| then x - sp.x else 0) else x - sp.x)
          (if sh = true then (if |y - sp.y| > |x - sp.x| then y - sp.y else 0) else y - sp.y))).find?
          (fun el : Element => el.id == sel.id) with _ | u
      · simp only [hfind]
        refine ⟨?_, ?_, ?_, ?_⟩ <;> trivial
      · simp only [hfind]
        refine ⟨?_, ?_, ?_, ?_⟩ <;> trivial
    · simp only [if_neg h1]
      refine ⟨?_, ?_, ?_, ?_⟩ <;> trivial

theorem handleMouseMove_moving_preserves (s : AppState) (x y : ℝ) (sh : Bool)
    (hact : s.action = ActionState.moving) (p : Pt) (hsp : s.startPoint = some p) :
    (handleMouseMove s x y sh).history.past = s.history.past ∧
    (handleMouseMove s x y sh).history.future = s.history.future ∧
    (handleMouseMove s x y sh).action = ActionState.moving ∧
    (handleMouseMove s x y sh).startPoint = some ⟨x, y⟩ := by
  have h1 : ¬(s.action = ActionState.idle) := by rw [hact]; simp
  have h2 : ¬(s.action = ActionState.selecting) := by rw [hact]; simp
  have h3 : ¬(s.action = ActionState.drawing) := by rw [hact]; simp
  have hmm : handleMouseMove s x y sh = handleMouseMoveMoving s p x y sh := by
    unfold handleMouseMove
    rw [hsp]
    simp only [if_neg h1, if_neg h2, if_neg h3, if_pos hact]
  rw [hmm]
  have hf := handleMouseMoveMoving_fields s p x y sh
  exact ⟨hf.1, hf.2.1, hf.2.2.1.trans hact, hf.2.2.2⟩

theorem applyMoves_moving_preserves (moves : List (ℝ × ℝ × Bool)) (s : AppState)
    (hact : s.action = ActionState.moving) (p : Pt) (hsp : s.startPoint = some p) :
    (applyMoves moves s).history.past = s.history.past ∧
    (applyMoves moves s).history.future = s.history.future ∧
    (applyMoves moves s).action = ActionState.moving ∧
    ∃ q : Pt, (applyMoves moves s).startPoint = some q := by
  induction moves generalizing s p with
  | nil => exact ⟨rfl, rfl, hact, p, hsp⟩
  | cons m ms ih =>
      have hstep := handleMouseMove_moving_preserves s m.1 m.2.1 m.2.2 hact p hsp
      have hrec := ih (handleMouseMove s m.1 m.2.1 m.2.2) hstep.2.2.1
        ⟨m.1, m.2.1⟩ hstep.2.2.2
      have hcons : applyMoves (m :: ms) s
          = applyMoves ms (handleMouseMove s m.1 m.2.1 m.2.2) := rfl
      rw [hcons]
      exact ⟨hrec.1.trans hstep.1, hrec.2.1.trans hstep.2.1, hrec.2.2.1, hrec.2.2.2⟩

theorem handleMouseUp_active_commits (s : AppState)
    (hact : s.action = ActionState.drawing ∨ s.action = ActionState.moving ∨
            s.action = ActionState.resizing) :
    (handleMouseUp s).history.past
        = takeLast MAX_HISTORY_LENGTH (s.history.past ++ [s.history.present]) ∧
    (handleMouseUp s).history.present = s.history.present ∧
    (handleMouseUp s).history.future = [] := by
  unfold handleMouseUp
  rw [if_pos hact]
  exact ⟨rfl, rfl, rfl⟩

/-- C3 amended: a full gesture in the `Moving` state adds exactly *two*
entries to `history.past`, not one — the pointer-down on the element
itself commits once (the selection/duplication update), each of the `N`
pointer-move events commits nothing, and the pointer-up commits once
more. -/
theorem moving_gesture_commits_twice (s : AppState) (now : Nat) (x y : ℝ)
    (sh alt : Bool) (e : Element) (moves : List (ℝ × ℝ × Bool))
    (hsel : s.selectedElement = none)
    (hhit : findClickedElement x y s.history.present = some e) :
    (handleMouseDown s now x y sh alt).history.past
        = takeLast MAX_HISTORY_LENGTH (s.history.past ++ [s.history.present]) ∧
    (applyMoves moves (handleMouseDown s now x y sh alt)).history.past
        = (handleMouseDown s now x y sh alt).history.past ∧
    (handleMouseUp (applyMoves moves (handleMouseDown s now x y sh alt))).history.past
        = takeLast MAX_HISTORY_LENGTH
            ((applyMoves moves (handleMouseDown s now x y sh alt)).history.past ++
             [(applyMoves moves (handleMouseDown s now x y sh alt)).history.present]) := by
  rw [handleMouseDown_no_handle_hit s now x y sh alt e hsel hhit]
  have hdown := handleMouseDownOnElement_commits { s with multiSelectMode := sh }
    now x y sh alt s.history.present e
  have hmoves := applyMoves_moving_preserves moves
    (handleMouseDownOnElement { s with multiSelectMode := sh } now x y sh alt
      s.history.present e) hdown.2.2.1 ⟨x, y⟩ hdown.2.2.2
  have hup := handleMouseUp_active_commits _ (Or.inr (Or.inl hmoves.2.2.1))
  exact ⟨hdown.1, hmoves.1, hup.1⟩

theorem findClickedElement_rectA_single : findClickedElement 5 5 [rectA] = some rectA := by
  simp only [findClickedElement]
  rw [if_pos isPointInElement_rectA]

/-- Witness for `moving_gesture_commits_twice`: a concrete click on
`rectA` followed by one move and the release. -/
theorem moving_gesture_commits_twice_witness :
    (handleMouseDown (initState [rectA]) 1 5 5 false false).history.past
        = takeLast MAX_HISTORY_LENGTH ([] ++ [[rectA]]) ∧
    (applyMoves [(6, 6, false)]
        (handleMouseDown (initState [rectA]) 1 5 5 false false)).history.past
        = (handleMouseDown (initState [rectA]) 1 5 5 false false).history.past ∧
    (handleMouseUp (applyMoves [(6, 6, false)]
        (handleMouseDown (initState [rectA]) 1 5 5 false false))).history.past
        = takeLast MAX_HISTORY_LENGTH
            ((applyMoves [(6, 6, false)]
                (handleMouseDown (initState [rectA]) 1 5 5 false false)).history.past ++
             [(applyMoves [(6, 6, false)]
                (handleMouseDown (initState [rectA]) 1 5 5 false false)).history.present]) :=
  moving_gesture_commits_twice (initState [rectA]) 1 5 5 false false rectA
    [(6, 6, false)] rfl findClickedElement_rectA_single

/-- Counterexample to C3: starting from an empty `past`, the gesture
pointer-down on `rectA`, one pointer-move, pointer-up leaves `past` with
exactly 2 entries — the whole Moving gesture added two history entries
(one at the down, one at the up), not one. -/
theorem moving_gesture_adds_two_entries :
    (initState [rectA]).history.past.length = 0 ∧
    (handleMouseUp (applyMoves [(6, 6, false)]
        (handleMouseDown (initState [rectA]) 1 5 5 false false))).history.past.length
      = 2 := by
  have h := moving_gesture_commits_twice (initState [rectA]) 1 5 5 false false rectA
    [(6, 6, false)] rfl findClickedElement_rectA_single
  refine ⟨rfl, ?_⟩
  have hA : takeLast MAX_HISTORY_LENGTH
      ((initState [rectA]).history.past ++ [(initState [rectA]).history.present])
      = [[rectA]] := rfl
  rw [h.2.2, h.2.1, h.1, hA, takeLast_length, List.length_append]
  simp [MAX_HISTORY_LENGTH]

theorem pasteShift_fields (fid : String) (el : Element) :
    (pasteShift fid el).id = fid ∧
    (pasteShift fid el).x = el.x + 20 ∧
    (pasteShift fid el).y = el.y + 20 ∧
    (pasteShift fid el).selected = true ∧
    (pasteShift fid el).type = el.type ∧
    (pasteShift fid el).width = el.width ∧
    (pasteShift fid el).height = el.height ∧
    (pasteShift fid el).radius = el.radius ∧
    (pasteShift fid el).text = el.text := by
  unfold pasteShift
  by_cases hc : (el.type = ElementType.line ∨ el.type = ElementType.arrow) ∧
      el.points.isSome = true
  · simp only [if_pos hc]
    refine ⟨?_, ?_, ?_, ?_, ?_, ?_, ?_, ?_, ?_⟩ <;> trivial
  · simp only [if_neg hc]
    refine ⟨?_, ?_, ?_, ?_, ?_, ?_, ?_, ?_, ?_⟩ <;> trivial

theorem pasteShift_points_lineArrow (fid : String) (el : Element)
    (htype : el.type = ElementType.line ∨ el.type = ElementType.arrow) :
    (pasteShift fid el).points
      = el.points.map (List.map fun p => (⟨p.x + 20, p.y + 20⟩ : Pt)) := by
  unfold pasteShift
  cases hp : el.points with
  | none =>
      rw [if_neg (by simp : ¬((el.type = ElementType.line ∨
          el.type = ElementType.arrow) ∧ (none : Option (List Pt)).isSome = true))]
      simp
  | some ps =>
      rw [if_pos ⟨htype, rfl⟩]
      simp

theorem elCoords_pasteShift_indep (a b : String) (el : Element) :
    elCoords (pasteShift a el) = elCoords (pasteShift b el) := by
  unfold elCoords pasteShift
  by_cases hc : (el.type = ElementType.line ∨ el.type = ElementType.arrow) ∧
      el.points.isSome = true
  · simp only [if_pos hc]
  · simp only [if_neg hc]

theorem mapIdxFrom_pasteShift_coords (f g : Nat → String) (i j : Nat)
    (l : List Element) :
    (mapIdxFrom (fun k el => pasteShift (f k) el) i l).map elCoords
      = (mapIdxFrom (fun k el => pasteShift (g k) el) j l).map elCoords := by
  induction l generalizing i j with
  | nil => rfl
  | cons a l ih =>
      simp only [mapIdxFrom, List.map_cons]
      rw [elCoords_pasteShift_indep (f i) (g j) a, ih (i + 1) (j + 1)]

theorem pasteClipboard_eq (now : Nat) (rand : Nat → String) (s : AppState)
    (c : Element) (cs : List Element) (hclip : s.clipboard = c :: cs) :
    pasteClipboard now rand s =
      { s with
        history := updateHistory s.history
          ((s.history.present.map fun el => { el with selected := false })
            ++ mapIdxFrom (fun i el => pasteShift (mintId2 now (rand i)) el) 0
                 s.clipboard)
        selectedElement := some (pasteShift (mintId2 now (rand 0)) c) } := by
  unfold pasteClipboard
  rw [hclip]
  simp only [mapIdxFrom]

/-- C6: pasting a non-empty clipboard deselects the whole scene and
appends, per clipboard element, a fresh-id copy offset by exactly +20/+20
from the coordinates stored in the clipboard (including every point of a
line/arrow point list); exactly the pasted set is selected; the paste
commits exactly once (one new `past` entry, `future` cleared); the first
pasted element becomes primary; and the clipboard is not mutated, so a
second paste lands at the same +20/+20 offsets from the clipboard source,
not cumulatively further. -/
theorem paste_semantics (s : AppState) (now : Nat) (rand : Nat → String)
    (c : Element) (cs : List Element) (hclip : s.clipboard = c :: cs) :
    (pasteClipboard now rand s).history.present
        = (s.history.present.map fun el => { el with selected := false })
          ++ mapIdxFrom (fun i el => pasteShift (mintId2 now (rand i)) el) 0
               s.clipboard ∧
    (∀ (fid : String) (el : Element),
        (pasteShift fid el).x = el.x + 20 ∧ (pasteShift fid el).y = el.y + 20 ∧
        (pasteShift fid el).selected = true ∧ (pasteShift fid el).id = fid ∧
        ((el.type = ElementType.line ∨ el.type = ElementType.arrow) →
          (pasteShift fid el).points
            = el.points.map (List.map fun p => (⟨p.x + 20, p.y + 20⟩ : Pt)))) ∧
    (pasteClipboard now rand s).clipboard = s.clipboard ∧
    (pasteClipboard now rand s).history.past
        = takeLast MAX_HISTORY_LENGTH (s.history.past ++ [s.history.present]) ∧
    (pasteClipboard now rand s).history.future = [] ∧
    (pasteClipboard now rand s).selectedElement
        = some (pasteShift (mintId2 now (rand 0)) c) ∧
    (∀ (now2 : Nat) (rand2 : Nat → String),
        (takeLast s.clipboard.length
            (pasteClipboard now2 rand2 (pasteClipboard now rand s)).history.present).map
          elCoords
          = (takeLast s.clipboard.length
              (pasteClipboard now rand s).history.present).map elCoords) := by
  have hstep := pasteClipboard_eq now rand s c cs hclip
  refine ⟨by rw [hstep]; try rfl, ?_, by rw [hstep]; try rfl,
      by rw [hstep]; try rfl, by rw [hstep]; try rfl,
      by rw [hstep]; try rfl, ?_⟩
  · intro fid el
    have hf := pasteShift_fields fid el
    exact ⟨hf.2.1, hf.2.2.1, hf.2.2.2.1, hf.1,
      fun ht => pasteShift_points_lineArrow fid el ht⟩
  · intro now2 rand2
    have hclip1 : (pasteClipboard now rand s).clipboard = c :: cs := by
      rw [hstep]
      exact hclip
    have hstep2 := pasteClipboard_eq now2 rand2 (pasteClipboard now rand s)
      c cs hclip1
    have hpres2 : (pasteClipboard now2 rand2 (pasteClipboard now rand s)).history.present
        = ((pasteClipboard now rand s).history.present.map
             fun el => { el with selected := false })
          ++ mapIdxFrom (fun i el => pasteShift (mintId2 now2 (rand2 i)) el) 0
               (pasteClipboard now rand s).clipboard := by
      rw [hstep2]
      rfl
    have hpres1 : (pasteClipboard now rand s).history.present
        = (s.history.present.map fun el => { el with selected := false })
          ++ mapIdxFrom (fun i el => pasteShift (mintId2 now (rand i)) el) 0
               s.clipboard := by
      rw [hstep]
      rfl
    have hlen2 : (mapIdxFrom (fun i el => pasteShift (mintId2 now2 (rand2 i)) el) 0
        (pasteClipboard now rand s).clipboard).length = s.clipboard.length := by
      rw [mapIdxFrom_length, hclip1, hclip]
    have hlen1 : (mapIdxFrom (fun i el => pasteShift (mintId2 now (rand i)) el) 0
        s.clipboard).length = s.clipboard.length := mapIdxFrom_length _ _ _
    rw [hpres2, takeLast_append_right _ _ hlen2, hpres1,
        takeLast_append_right _ _ hlen1, hclip1, hclip]
    exact mapIdxFrom_pasteShift_coords (fun i => mintId2 now2 (rand2 i))
      (fun i => mintId2 now (rand i)) 0 0 (c :: cs)

/-- Witness for `paste_semantics` at a concrete one-element clipboard. -/
theorem paste_semantics_witness :
    (pasteClipboard 1 randW pasteState).clipboard = pasteState.clipboard ∧
    (pasteClipboard 1 randW pasteState).history.future = [] ∧
    (pasteClipboard 1 randW pasteState).selectedElement
      = some (pasteShift (mintId2 1 (randW 0)) clipElem) :=
  have h := paste_semantics pasteState 1 randW clipElem [] rfl
  ⟨h.2.2.1, h.2.2.2.2.1, h.2.2.2.2.2.1⟩

theorem mem_of_getLast?_eq {α : Type _} {l : List α} {a : α}
    (h : l.getLast? = some a) : a ∈ l := by
  induction l with
  | nil => cases h
  | cons b bs ih =>
      cases bs with
      | nil =>
          simp at h
          simp [h]
      | cons c cs =>
          rw [List.getLast?_cons_cons] at h
          exact List.mem_cons_of_mem b (ih h)

theorem noFH_map {els : List Element} {f : Element → Element}
    (hf : ∀ el, (f el).type = el.type) (h : NoFreehandList els) :
    NoFreehandList (els.map f) := by
  intro el hel
  obtain ⟨a, ha, rfl⟩ := List.mem_map.mp hel
  rw [hf]
  exact h a ha

theorem noFH_mapIdxFrom {f : Nat → Element → Element}
    (hf : ∀ i el, (f i el).type = el.type) :
    ∀ (i : Nat) (els : List Element), NoFreehandList els →
      NoFreehandList (mapIdxFrom f i els) := by
  intro i els
  induction els generalizing i with
  | nil => intro _ el hel; cases hel
  | cons a l ih =>
      intro h el hel
      simp only [mapIdxFrom, List.mem_cons] at hel
      rcases hel with rfl | hel
      · rw [hf]
        exact h a (List.mem_cons_self a l)
      · exact ih (i + 1) (fun e he => h e (List.mem_cons_of_mem a he)) el hel

theorem noFH_append {l1 l2 : List Element} (h1 : NoFreehandList l1)
    (h2 : NoFreehandList l2) : NoFreehandList (l1 ++ l2) := by
  intro el hel
  rcases List.mem_append.mp hel with h | h
  · exact h1 el h
  · exact h2 el h

theorem noFH_filter {l : List Element} (p : Element → Bool)
    (h : NoFreehandList l) : NoFreehandList (l.filter p) :=
  fun el hel => h el (List.mem_of_mem_filter hel)

theorem noFH_singleton {el : Element} (h : el.type ≠ ElementType.freehand) :
    NoFreehandList [el] := by
  intro e he
  simp at he
  rw [he]
  exact h

theorem noFH_hist_update {h : History} (hh : NoFreehandHist h)
    {els : List Element} (hels : NoFreehandList els) :
    NoFreehandHist (updateHistory h els) := by
  refine ⟨hels, ?_, ?_⟩
  · intro sc hsc
    rcases List.mem_append.mp (takeLast_subset _ _ sc hsc) with hmem | hmem
    · exact hh.2.1 sc hmem
    · simp at hmem
      rw [hmem]
      exact hh.1
  · intro sc hsc
    cases hsc

theorem noFH_hist_undo {h : History} (hh : NoFreehandHist h) :
    NoFreehandHist (handleUndo h) := by
  unfold handleUndo
  cases hl : h.past.getLast? with
  | none => exact hh
  | some sc =>
      refine ⟨hh.2.1 sc (mem_of_getLast?_eq hl), ?_, ?_⟩
      · intro t ht
        exact hh.2.1 t (List.dropLast_subset _ ht)
      · intro t ht
        rcases List.mem_cons.mp (List.take_subset _ _ ht) with rfl | hmem
        · exact hh.1
        · exact hh.2.2 t hmem

theorem noFH_hist_redo {h : History} (hh : NoFreehandHist h) :
    NoFreehandHist (handleRedo h) := by
  unfold handleRedo
  cases hf : h.future with
  | nil => exact hh
  | cons sc rest =>
      have hfuture := hh.2.2
      rw [hf] at hfuture
      refine ⟨hfuture sc (List.mem_cons_self _ _), ?_, ?_⟩
      · intro t ht
        rcases List.mem_append.mp (takeLast_subset _ _ t ht) with hmem | hmem
        · exact hh.2.1 t hmem
        · simp at hmem
          rw [hmem]
          exact hh.1
      · intro t ht
        exact hfuture t (List.mem_cons_of_mem _ ht)

theorem noFH_hist_setPresent {h : History} (hh : NoFreehandHist h)
    {els : List Element} (hels : NoFreehandList els) :
    NoFreehandHist { h with present := els } :=
  ⟨hels, hh.2.1, hh.2.2⟩

theorem pasteShift_type (fid : String) (el : Element) :
    (pasteShift fid el).type = el.type :=
  (pasteShift_fields fid el).2.2.2.2.1

theorem applyPropEdit_type (p : PropEdit) (el : Element) :
    (applyPropEdit p el).type = el.type := by
  cases p <;> rfl

theorem resizeElement_type (h : HandlePosition) (x y : ℝ) (sh : Bool)
    (el : Element) : (resizeElement h x y sh el).type = el.type := by
  unfold resizeElement
  split <;> first
    | rfl
    | (split <;> rfl)

theorem freehandAppend_type (x y : ℝ) (el : Element) :
    (freehandAppend x y el).type = el.type := rfl

theorem rectangleDrawResize_type (x y : ℝ) (sh : Bool) (el : Element) :
    (rectangleDrawResize x y sh el).type = el.type := by
  unfold rectangleDrawResize
  split <;> rfl

theorem circleDrawResize_type (x y : ℝ) (el : Element) :
    (circleDrawResize x y el).type = el.type := rfl

theorem lineDrawUpdate_type (x y : ℝ) (sh : Bool) (el : Element) :
    (lineDrawUpdate x y sh el).type = el.type := by
  unfold lineDrawUpdate
  split <;> rfl

theorem moveSelectedBy_type (dx dy : ℝ) (el : Element) :
    (moveSelectedBy dx dy el).type = el.type := by
  unfold moveSelectedBy
  split
  · split <;> first
      | rfl
      | (split <;> rfl)
  · rfl

theorem rotateElementTo_type (x y : ℝ) (sh : Bool) (el : Element) :
    (rotateElementTo x y sh el).type = el.type := rfl

theorem applyBoxSelection_type (m : Bool) (b : SelectionBox) (el : Element) :
    (applyBoxSelection m b el).type = el.type := by
  unfold applyBoxSelection
  split <;> rfl

theorem findClickedElement_mem {x y : ℝ} {els : List Element} {e : Element}
    (h : findClickedElement x y els = some e) : e ∈ els := by
  induction els with
  | nil => cases h
  | cons a l ih =>
      simp only [findClickedElement] at h
      by_cases ha : isPointInElement x y a
      · rw [if_pos ha] at h
        simp only [Option.some_inj] at h
        rw [← h]
        exact List.mem_cons_self a l
      · rw [if_neg ha] at h
        exact List.mem_cons_of_mem a (ih h)

theorem findTextElement_mem {x y : ℝ} {els : List Element} {e : Element}
    (h : findTextElement x y els = some e) : e ∈ els := by
  induction els with
  | nil => cases h
  | cons a l ih =>
      simp only [findTextElement] at h
      by_cases ha : a.type = ElementType.text ∧ isPointInElement x y a
      · rw [if_pos ha] at h
        simp only [Option.some_inj] at h
        rw [← h]
        exact List.mem_cons_self a l
      · rw [if_neg ha] at h
        exact List.mem_cons_of_mem a (ih h)

theorem noFH_handleEscape (s : AppState) (hs : NoFreehandState s) :
    NoFreehandState (handleEscape s) := by
  unfold handleEscape
  split
  · exact ⟨noFH_hist_update hs.1 (noFH_map (fun el => rfl) hs.1.1), hs.2⟩
  · exact hs

theorem noFH_handleSelectAll (s : AppState) (hs : NoFreehandState s) :
    NoFreehandState (handleSelectAll s) := by
  unfold handleSelectAll
  dsimp only
  have hupd : NoFreehandList
      (s.history.present.map fun el => { el with selected := true }) :=
    noFH_map (fun el => rfl) hs.1.1
  split <;> exact ⟨noFH_hist_update hs.1 hupd, hs.2⟩

theorem noFH_copySelected (now : Nat) (rand : Nat → String) (s : AppState)
    (hs : NoFreehandState s) : NoFreehandState (copySelected now rand s) := by
  unfold copySelected
  dsimp only
  split
  · exact ⟨hs.1, noFH_mapIdxFrom
      (f := fun i el => { el with id := mintId2 now (rand i) }) (fun i el => rfl)
      0 (List.filter (fun el => el.selected) s.history.present)
      (noFH_filter (fun el => el.selected) hs.1.1)⟩
  · exact hs

theorem noFH_cutSelected (now : Nat) (rand : Nat → String) (s : AppState)
    (hs : NoFreehandState s) : NoFreehandState (cutSelected now rand s) := by
  unfold cutSelected
  dsimp only
  split
  · exact ⟨noFH_hist_update hs.1 (noFH_filter (fun el => !el.selected) hs.1.1),
      noFH_mapIdxFrom
        (f := fun i el => { el with id := mintId2 now (rand i) }) (fun i el => rfl)
        0 (List.filter (fun el => el.selected) s.history.present)
        (noFH_filter (fun el => el.selected) hs.1.1)⟩
  · exact hs

theorem noFH_pasteClipboard (now : Nat) (rand : Nat → String) (s : AppState)
    (hs : NoFreehandState s) : NoFreehandState (pasteClipboard now rand s) := by
  cases hc : s.clipboard with
  | nil =>
      simp only [pasteClipboard, hc]
      exact hs
  | cons c cs =>
      rw [pasteClipboard_eq now rand s c cs hc]
      refine ⟨noFH_hist_update hs.1 (noFH_append (noFH_map (fun el => rfl) hs.1.1)
        (noFH_mapIdxFrom (fun i el => pasteShift_type _ _) 0 _ hs.2)), hs.2⟩

theorem noFH_duplicateSelected (now : Nat) (rand : Nat → String) (s : AppState)
    (hs : NoFreehandState s) : NoFreehandState (duplicateSelected now rand s) := by
  unfold duplicateSelected
  dsimp only
  split
  · have hnew := noFH_hist_update hs.1
      (noFH_append (noFH_map (f := fun el => { el with selected := false })
          (fun el => rfl) hs.1.1)
        (noFH_mapIdxFrom (f := fun i el => pasteShift (mintId2 now (rand i)) el)
          (fun i el => pasteShift_type _ _) 0
          (List.filter (fun el => el.selected) s.history.present)
          (noFH_filter (fun el => el.selected) hs.1.1)))
    split <;> exact ⟨hnew, hs.2⟩
  · exact hs

theorem noFH_handleDeleteSelectedElements (s : AppState)
    (hs : NoFreehandState s) :
    NoFreehandState (handleDeleteSelectedElements s) :=
  ⟨noFH_hist_update hs.1 (noFH_filter _ hs.1.1), hs.2⟩

theorem noFH_handleDeleteKey (s : AppState) (hs : NoFreehandState s) :
    NoFreehandState (handleDeleteKey s) := by
  unfold handleDeleteKey
  split
  · exact noFH_handleDeleteSelectedElements s hs
  · exact hs

theorem noFH_handleTextEdit (s : AppState) (x y : ℝ) (t : String)
    (hs : NoFreehandState s) : NoFreehandState (handleTextEdit s x y t) := by
  unfold handleTextEdit
  cases hft : findTextElement x y s.history.present with
  | none => exact hs
  | some te =>
      dsimp only
      have hupd := noFH_hist_update hs.1
        (noFH_map (f := fun el => if el.id == te.id
            then { el with text := some t } else el)
          (fun el => by dsimp only; split <;> rfl) hs.1.1)
      split <;> (try split) <;> exact ⟨hupd, hs.2⟩

theorem noFH_updateElementProperty (s : AppState) (p : PropEdit)
    (hs : NoFreehandState s) : NoFreehandState (updateElementProperty s p) := by
  unfold updateElementProperty
  dsimp only
  split
  · have hupd := noFH_hist_update hs.1
      (noFH_map (f := fun el => if el.selected then applyPropEdit p el else el)
        (fun el => by dsimp only; split
                      · exact applyPropEdit_type p el
                      · rfl) hs.1.1)
    split <;> exact ⟨hupd, hs.2⟩
  · exact hs

theorem noFH_appUndo (s : AppState) (hs : NoFreehandState s) :
    NoFreehandState (appUndo s) := ⟨noFH_hist_undo hs.1, hs.2⟩

theorem noFH_appRedo (s : AppState) (hs : NoFreehandState s) :
    NoFreehandState (appRedo s) := ⟨noFH_hist_redo hs.1, hs.2⟩

theorem noFH_appSetTool (s : AppState) (t : ElementType)
    (hs : NoFreehandState s) : NoFreehandState (appSetTool s t) := hs

theorem drawCallback_type (g : Element → Element)
    (hg : ∀ el, (g el).type = el.type) (k i : Nat) (el : Element) :
    ((if i = k then g el else el) : Element).type = el.type := by
  split
  · exact hg el
  · rfl

theorem idCallback_type (g : Element → Element)
    (hg : ∀ el, (g el).type = el.type) (selId : String) (el : Element) :
    ((if el.id == selId then g el else el) : Element).type = el.type := by
  split
  · exact hg el
  · rfl

theorem noFH_setPresent (s : AppState) (hs : NoFreehandState s)
    {els : List Element} (hels : NoFreehandList els) :
    NoFreehandState (setPresent s els) :=
  ⟨noFH_hist_setPresent hs.1 hels, hs.2⟩

theorem noFH_handleMouseUp (s : AppState) (hs : NoFreehandState s) :
    NoFreehandState (handleMouseUp s) := by
  unfold handleMouseUp
  dsimp only
  split
  · refine ⟨⟨hs.1.1, ?_, ?_⟩, hs.2⟩
    · intro t ht
      rcases List.mem_append.mp (takeLast_subset _ _ t ht) with hm | hm
      · exact hs.1.2.1 t hm
      · simp at hm
        rw [hm]
        exact hs.1.1
    · intro t ht
      cases ht
  · split
    · split
      · split
        · exact hs
        · exact ⟨noFH_hist_update hs.1
            (noFH_map (fun el => applyBoxSelection_type _ _ el) hs.1.1), hs.2⟩
      · exact hs
    · exact hs

theorem noFH_handleMouseMoveDrawing (s : AppState) (x y : ℝ) (sh : Bool)
    (hs : NoFreehandState s) :
    NoFreehandState (handleMouseMoveDrawing s x y sh) := by
  unfold handleMouseMoveDrawing
  dsimp only
  split
  · exact hs
  · split
    · exact noFH_setPresent s hs (noFH_mapIdxFrom
        (fun i el => drawCallback_type (freehandAppend x y)
          (freehandAppend_type x y) _ i el) 0 _ hs.1.1)
    · split
      · exact noFH_setPresent s hs (noFH_mapIdxFrom
          (fun i el => drawCallback_type (rectangleDrawResize x y sh)
            (rectangleDrawResize_type x y sh) _ i el) 0 _ hs.1.1)
      · split
        · exact noFH_setPresent s hs (noFH_mapIdxFrom
            (fun i el => drawCallback_type (circleDrawResize x y)
              (circleDrawResize_type x y) _ i el) 0 _ hs.1.1)
        · split
          · exact noFH_setPresent s hs (noFH_mapIdxFrom
              (fun i el => drawCallback_type (lineDrawUpdate x y sh)
                (lineDrawUpdate_type x y sh) _ i el) 0 _ hs.1.1)
          · exact hs

theorem noFH_handleMouseMoveMoving (s : AppState) (sp : Pt) (x y : ℝ)
    (sh : Bool) (hs : NoFreehandState s) :
    NoFreehandState (handleMouseMoveMoving s sp x y sh) := by
  unfold handleMouseMoveMoving setPresent
  dsimp only
  split <;> (try split) <;> (try split) <;>
    exact ⟨⟨noFH_map (fun el => moveSelectedBy_type _ _ el) hs.1.1,
      hs.1.2.1, hs.1.2.2⟩, hs.2⟩

theorem noFH_handleMouseMoveResizing (s : AppState) (x y : ℝ) (sh : Bool)
    (hs : NoFreehandState s) :
    NoFreehandState (handleMouseMoveResizing s x y sh) := by
  unfold handleMouseMoveResizing updateSelectedFromPresent setPresent
  dsimp only
  split
  · split
    · split <;>
        exact ⟨⟨noFH_map (fun el => idCallback_type (rotateElementTo x y sh)
            (rotateElementTo_type x y sh) _ el) hs.1.1,
          hs.1.2.1, hs.1.2.2⟩, hs.2⟩
    · split <;>
        exact ⟨⟨noFH_map (fun el => idCallback_type (resizeElement _ x y sh)
            (resizeElement_type _ x y sh) _ el) hs.1.1,
          hs.1.2.1, hs.1.2.2⟩, hs.2⟩
  · exact hs

theorem noFH_handleMouseMove (s : AppState) (x y : ℝ) (sh : Bool)
    (hs : NoFreehandState s) : NoFreehandState (handleMouseMove s x y sh) := by
  unfold handleMouseMove
  split
  · exact hs
  · split
    · exact hs
    · split
      · split
        · exact hs
        · exact hs
      · split
        · exact noFH_handleMouseMoveDrawing s x y sh hs
        · split
          · exact noFH_handleMouseMoveMoving s _ x y sh hs
          · split
            · exact noFH_handleMouseMoveResizing s x y sh hs
            · exact hs

theorem noFH_handleMouseDownOnElement (s : AppState) (now : Nat) (x y : ℝ)
    (sh alt : Bool) (els : List Element) (ce : Element)
    (hs : NoFreehandState s) (hels : NoFreehandList els)
    (hce : ce.type ≠ ElementType.freehand) :
    NoFreehandState (handleMouseDownOnElement s now x y sh alt els ce) := by
  unfold handleMouseDownOnElement
  dsimp only
  split
  · exact ⟨noFH_hist_update hs.1
      (noFH_append (noFH_map (fun el => rfl) hels) (noFH_singleton hce)), hs.2⟩
  · split
    · exact ⟨noFH_hist_update hs.1 (noFH_map (fun el => rfl) hels), hs.2⟩
    · have hupd := noFH_hist_update hs.1
        (noFH_map (f := fun el =>
            if el.id == ce.id then
              { el with selected := if sh = true then !el.selected else true }
            else
              { el with selected := if sh = true then el.selected else false })
          (fun el => by dsimp only; split <;> rfl) hels)
      split <;> exact ⟨hupd, hs.2⟩

theorem noFH_clearSelectionOnEmptyDown (s : AppState) (sh : Bool)
    (hs : NoFreehandState s) :
    NoFreehandState (clearSelectionOnEmptyDown s sh) := by
  unfold clearSelectionOnEmptyDown
  split
  · split
    · exact ⟨noFH_hist_update hs.1 (noFH_map (fun el => rfl) hs.1.1), hs.2⟩
    · exact hs
  · exact hs

theorem clearSelectionOnEmptyDown_clipboard (s : AppState) (sh : Bool) :
    (clearSelectionOnEmptyDown s sh).clipboard = s.clipboard := by
  unfold clearSelectionOnEmptyDown
  split
  · split <;> rfl
  · rfl

theorem noFH_handleMouseDownEmpty (s : AppState) (now : Nat) (x y : ℝ)
    (sh : Bool) (hs : NoFreehandState s) :
    NoFreehandState (handleMouseDownEmpty s now x y sh) := by
  have hs1 := noFH_clearSelectionOnEmptyDown s sh hs
  unfold handleMouseDownEmpty
  dsimp only
  split
  · exact hs1
  · split
    · exact ⟨noFH_hist_update hs1.1
        (noFH_append hs.1.1 (noFH_singleton
          (show ElementType.line ≠ ElementType.freehand by decide))), hs1.2⟩
    · split
      · exact ⟨noFH_hist_update hs1.1
          (noFH_append (noFH_map (fun el => rfl) hs.1.1)
            (noFH_singleton
              (show ElementType.text ≠ ElementType.freehand by decide))), hs1.2⟩
      · rename_i htool hfh htext
        have hnotfh : s.tool ≠ ElementType.freehand := hfh
        refine ⟨noFH_hist_update hs1.1 (noFH_append hs.1.1 ?_), hs1.2⟩
        apply noFH_singleton
        show ((if s.tool = ElementType.circle then _
               else if s.tool = ElementType.line ∨ s.tool = ElementType.arrow
               then _ else _) : Element).type ≠ ElementType.freehand
        split
        · exact hnotfh
        · split
          · exact hnotfh
          · exact hnotfh

theorem noFH_handleMouseDown (s : AppState) (now : Nat) (x y : ℝ)
    (sh alt : Bool) (hs : NoFreehandState s) :
    NoFreehandState (handleMouseDown s now x y sh alt) := by
  unfold handleMouseDown
  dsimp only
  have hs' : NoFreehandState { s with multiSelectMode := sh } := hs
  split
  · exact hs'
  · split
    · rename_i ce hce
      exact noFH_handleMouseDownOnElement _ now x y sh alt _ ce hs' hs.1.1
        (hs.1.1 ce (findClickedElement_mem hce))
    · exact noFH_handleMouseDownEmpty _ now x y sh hs'

/-- Every interaction event preserves the no-freehand invariant. -/
theorem noFH_step (s : AppState) (ev : Event) (hs : NoFreehandState s) :
    NoFreehandState (step s ev) := by
  cases ev with
  | mouseDown now x y shift alt => exact noFH_handleMouseDown s now x y shift alt hs
  | mouseMove x y shift => exact noFH_handleMouseMove s x y shift hs
  | mouseUp => exact noFH_handleMouseUp s hs
  | keyEscape => exact noFH_handleEscape s hs
  | keySelectAll => exact noFH_handleSelectAll s hs
  | keyCopy now rand => exact noFH_copySelected now rand s hs
  | keyCut now rand => exact noFH_cutSelected now rand s hs
  | keyPaste now rand => exact noFH_pasteClipboard now rand s hs
  | keyDuplicate now rand => exact noFH_duplicateSelected now rand s hs
  | keyDelete => exact noFH_handleDeleteKey s hs
  | keyUndo => exact noFH_appUndo s hs
  | keyRedo => exact noFH_appRedo s hs
  | textEdit x y newText => exact noFH_handleTextEdit s x y newText hs
  | propEdit p => exact noFH_updateElementProperty s p hs
  | selectTool t => exact noFH_appSetTool s t hs

theorem freehand_down_appends_line (s : AppState) (now : Nat) (x y : ℝ)
    (htool : s.tool = ElementType.freehand)
    (hsel : s.selectedElement = none)
    (hhit : findClickedElement x y s.history.present = none) :
    ∃ el : Element,
      (handleMouseDown s now x y false false).history.present.getLast?
        = some el ∧
      el.type = ElementType.line ∧ el.points = some [⟨x, y⟩] := by
  rw [handleMouseDown_empty_space s now x y false false hsel hhit]
  unfold handleMouseDownEmpty
  dsimp only
  rw [if_neg (by simp [htool] :
      ¬(({ s with multiSelectMode := false } : AppState).tool
          = ElementType.selection ∨ (false : Bool) = true))]
  rw [if_pos (htool : ({ s with multiSelectMode := false } : AppState).tool
      = ElementType.freehand)]
  refine ⟨{ id := mintId now, type := ElementType.line, x := 0, y := 0,
            points := some [⟨x, y⟩], stroke := s.color,
            strokeWidth := s.strokeWidth, fill := s.fill,
            isDragging := false, rotation := some 0 }, ?_, rfl, rfl⟩
  show (updateHistory _ (s.history.present ++ [_])).present.getLast? = _
  rw [show ∀ (h : History) (els : List Element),
      (updateHistory h els).present = els from fun h els => rfl]
  rw [List.getLast?_concat]

/-- C9: no element of the scene ever has kind `freehand` — the freehand
tool creates its stroke as an element of kind `line` seeded with the
single down-point, every interaction event preserves the absence of
`freehand` elements throughout scene, history snapshots and clipboard,
and (the strokes living in the line/arrow code paths) both hit-testing
and box-selection of a multi-point line/arrow element depend only on its
first two stored points. -/
theorem freehand_strokes_are_lines :
    (∀ (s : AppState) (now : Nat) (x y : ℝ),
        s.tool = ElementType.freehand → s.selectedElement = none →
        findClickedElement x y s.history.present = none →
        ∃ el : Element,
          (handleMouseDown s now x y false false).history.present.getLast?
            = some el ∧
          el.type = ElementType.line ∧ el.points = some [⟨x, y⟩]) ∧
    (∀ (s : AppState) (ev : Event),
        NoFreehandState s → NoFreehandState (step s ev)) ∧
    (∀ (el : Element) (p1 p2 : Pt) (rest : List Pt) (x y : ℝ),
        el.type = ElementType.line ∨ el.type = ElementType.arrow →
        (isPointInElement x y { el with points := some (p1 :: p2 :: rest) } ↔
         isPointInElement x y { el with points := some [p1, p2] })) ∧
    (∀ (el : Element) (p1 p2 : Pt) (rest : List Pt) (box : SelectionBox),
        el.type = ElementType.line ∨ el.type = ElementType.arrow →
        (isElementInSelectionBox { el with points := some (p1 :: p2 :: rest) } box ↔
         isElementInSelectionBox { el with points := some [p1, p2] } box)) := by
  refine ⟨freehand_down_appends_line, noFH_step, ?_, ?_⟩
  · intro el p1 p2 rest x y ht
    rcases ht with ht | ht <;> simp only [isPointInElement, ht]
  · intro el p1 p2 rest box ht
    rcases ht with ht | ht <;> simp only [isElementInSelectionBox, ht]

/-- Witness for `freehand_strokes_are_lines`: a freehand pointer-down on
an empty scene, and the hit test of a concrete three-point line. -/
theorem freehand_strokes_are_lines_witness :
    (∃ el : Element,
        (handleMouseDown { initState [] with tool := ElementType.freehand }
            7 3 4 false false).history.present.getLast? = some el ∧
        el.type = ElementType.line ∧ el.points = some [⟨3, 4⟩]) ∧
    (isPointInElement 50 9
        { lineSample with points := some [⟨0, 0⟩, ⟨100, 0⟩, ⟨500, 500⟩] } ↔
     isPointInElement 50 9 { lineSample with points := some [⟨0, 0⟩, ⟨100, 0⟩] }) :=
  ⟨freehand_strokes_are_lines.1 _ 7 3 4 rfl rfl rfl,
   freehand_strokes_are_lines.2.2.1 lineSample ⟨0, 0⟩ ⟨100, 0⟩ [⟨500, 500⟩] 50 9
     (Or.inl rfl)⟩
